import Mathlib

/-!
# Verification of the wagtail-lms SCORM/H5P runtime subsystem

A shallow embedding of the core runtime code of the wagtail-lms repository
(`src/wagtail_lms/models.py` and `src/wagtail_lms/views.py`), together with
proofs about the package-extraction pipeline, the SCORM RTE key/value
protocol, the xAPI ingestion pipeline and the completion-propagation state
machine.

Python strings are modelled as `String` (with character-level helpers on
`List Char`), machine floats are abstracted: score values are `ℚ` and the
`float(...)` parser is a parameter `parseFloat : String → Option ℚ` since no
verified property depends on the numeric value, only on parse success or
failure.  Database rows are association lists, timestamps are `Nat` values
passed in as an explicit `now` argument.
-/

set_option autoImplicit false

namespace WagtailLms

/-! ## Character-level path utilities

Models of the Python functions used by the extraction and serving code:
`str.replace("\\", "/")`, `str.rstrip("/")`, `posixpath.join` and
`posixpath.normpath`.
-/

/-- `name.replace("\\", "/")`: single-character replacement is a map. -/
def replaceBsChars (cs : List Char) : List Char :=
  cs.map (fun c => if c = '\\' then '/' else c)

/-- `str.rstrip("/")`: drop trailing forward slashes. -/
def rstripSlashChars (cs : List Char) : List Char :=
  (cs.reverse.dropWhile (fun c => c = '/')).reverse

/-- `str.rstrip("/")` on `String`. -/
def rstripSlash (s : String) : String :=
  String.mk (rstripSlashChars s.data)

/-- Two-argument `posixpath.join`: a later component that is absolute
discards what came before; otherwise a single slash separates. -/
def joinChars (a b : List Char) : List Char :=
  if b.head? = some '/' then b
  else if a = [] ∨ a.getLast? = some '/' then a ++ b
  else a ++ '/' :: b

/-- `posixpath.join` on `String`. -/
def posixJoin (a b : String) : String :=
  String.mk (joinChars a.data b.data)

/-- `str.split("/")`: split into components, keeping empty pieces. -/
def splitSlash : List Char → List (List Char)
  | [] => [[]]
  | c :: rest =>
    let r := splitSlash rest
    if c = '/' then [] :: r
    else
      match r with
      | [] => [[c]]
      | p :: ps => (c :: p) :: ps

/-- Join components back with slashes (`"/".join(new_comps)`). -/
def joinSlash : List (List Char) → List Char
  | [] => []
  | [p] => p
  | p :: ps => p ++ '/' :: joinSlash ps

/-- The `..` path component. -/
def ddComp : List Char := ['.', '.']

/-- One step of the `posixpath.normpath` component loop: skip empty and `.`
components; push anything that is not `..`; push `..` when the path is
relative and the stack is empty or the stack already ends in `..`;
otherwise pop (or, for an absolute path with an empty stack, drop). -/
def normStep (abs : Bool) (st : List (List Char)) (c : List Char) : List (List Char) :=
  if c = [] ∨ c = ['.'] then st
  else if c ≠ ddComp ∨ (abs = false ∧ st = []) ∨ (st ≠ [] ∧ st.getLast? = some ddComp) then
    st ++ [c]
  else if st ≠ [] then st.dropLast
  else st

/-- Number of slashes `posixpath.normpath` preserves at the front: two for
exactly a double slash, one for any other absolute path, zero otherwise. -/
def leadSlashes (cs : List Char) : Nat :=
  if ['/', '/'].isPrefixOf cs ∧ ¬ ['/', '/', '/'].isPrefixOf cs then 2
  else if ['/'].isPrefixOf cs then 1
  else 0

/-- The final assembly of `posixpath.normpath`:
`'/' * initial_slashes + '/'.join(comps) or '.'`. -/
def normpathOut (k : Nat) (parts : List (List Char)) : List Char :=
  if List.replicate k '/' ++ joinSlash parts = [] then ['.']
  else List.replicate k '/' ++ joinSlash parts

/-- `posixpath.normpath` at the character level. -/
def normpathChars (cs : List Char) : List Char :=
  if cs = [] then ['.']
  else
    normpathOut (leadSlashes cs)
      ((splitSlash cs).foldl (normStep (decide (0 < leadSlashes cs))) [])

/-- `posixpath.normpath` on `String`. -/
def normpath (s : String) : String :=
  String.mk (normpathChars s.data)

/-- Does `pat` occur as a contiguous substring (`pat in s` in Python)? -/
def isSubChars (pat : List Char) : List Char → Bool
  | [] => pat.isEmpty
  | c :: rest => pat.isPrefixOf (c :: rest) || isSubChars pat rest

/-- `s.startswith(t)` at the character level. -/
def strStartsWith (s t : String) : Bool :=
  t.data.isPrefixOf s.data

/-- `s.endswith(t)` at the character level. -/
def strEndsWith (s t : String) : Bool :=
  t.data.isSuffixOf s.data

/-! ## Package extraction (models.py)

`SCORMPackage.extract_package` and `H5PActivity.extract_package` iterate the
archive entries with an identical traversal filter; only the content root
differs (and the H5P variant deletes each destination before writing, which
does not change the set of written paths).  The model records the storage
paths that `default_storage.save` is called with.  CRC errors while reading
member data (H5P) abort extraction and are outside the traversal claim.
-/

/-- One archive member as seen by `zipfile.ZipFile.infolist()`. -/
structure ZipEntry where
  filename : String
  isDir : Bool
deriving DecidableEq, Repr

/-- The traversal filter applied to each member name: normalize separators,
lexically normalize, then reject names that collapse to `.`, are absolute,
climb out via a leading `..`, or contain an interior `/../` segment. -/
def suspiciousName (name : String) : Bool :=
  let normalized := normpathChars (replaceBsChars name.data)
  normalized = ['.'] || ['/'].isPrefixOf normalized
    || ddComp.isPrefixOf normalized || isSubChars ['/', '.', '.', '/'] normalized

/-- The shared extraction loop: skip directory entries, log-skip suspicious
names, and write every surviving member to
`posixpath.join(content_path, unique_dir, member.filename)` where
`content_path` is the configured root with trailing slashes stripped.
Returns the list of storage paths written, in order. -/
def extractWrites (contentConf : String) (uniqueDir : String) : List ZipEntry → List String
  | [] => []
  | e :: rest =>
    if e.isDir then extractWrites contentConf uniqueDir rest
    else if suspiciousName e.filename then extractWrites contentConf uniqueDir rest
    else
      posixJoin (posixJoin (rstripSlash contentConf) uniqueDir) e.filename
        :: extractWrites contentConf uniqueDir rest

/-- `SCORMPackage.extract_package`: storage paths written while extracting a
SCORM archive under `WAGTAIL_LMS_SCORM_CONTENT_PATH` and the directory
`package_{id}_{basename}` (passed here as `uniqueDir`). -/
def SCORMPackage.extract_package (scormContentConf uniqueDir : String)
    (entries : List ZipEntry) : List String :=
  extractWrites scormContentConf uniqueDir entries

/-- `H5PActivity.extract_package`: storage paths written while extracting an
H5P archive under `WAGTAIL_LMS_H5P_CONTENT_PATH` and the directory
`h5p_{pk}_{basename}` (passed here as `uniqueDir`); the filter and the
join are identical to the SCORM variant. -/
def H5PActivity.extract_package (h5pContentConf uniqueDir : String)
    (entries : List ZipEntry) : List String :=
  extractWrites h5pContentConf uniqueDir entries

/-- Is a path component plain: not empty, not `.`, not `..`?  A destination
directory whose components are all plain (and which contains no backslash)
is in normal form and cannot be escaped by a relative path that survives
the filter. -/
def plainComp (c : List Char) : Bool :=
  !(c = [] || c = ['.'] || c = ddComp)

/-- The destination directory `content_path/unique_dir` of an extraction. -/
def destDir (contentConf uniqueDir : String) : String :=
  posixJoin (rstripSlash contentConf) uniqueDir

/-- The destination is well formed: every slash-separated component is plain
and it contains no backslash.  True for the real configuration values
(`scorm_content`, `h5p_content`, `package_{id}_{basename}`). -/
def plainDest (dest : String) : Bool :=
  (splitSlash dest.data).all plainComp && dest.data.all (fun c => !(c = '\\'))

/-- A written storage path stays inside the destination directory: after
normalizing separators and lexically normalizing, it still starts with
`dest ++ "/"`.  Treating the backslash as a separator here is the
conservative reading; containment under it implies POSIX containment. -/
def insideDest (dest w : String) : Bool :=
  (dest.data ++ ['/']).isPrefixOf (normpathChars (replaceBsChars w.data))

/-! ## SCORM runtime state (views.py)

One `SCORMAttempt` row together with its `SCORMData` key/value rows and the
`CourseEnrollment` table.  User ids, course ids and SCORM package ids are
`Nat`; the course → `scorm_package` foreign key (nullable) is a parameter.
-/

/-- The fields of a `SCORMAttempt` row that the RTE protocol reads or
writes, plus the user attributes used by `get_scorm_value` defaults. -/
structure SCORMAttemptRec where
  userId : Nat
  userFullName : String
  username : String
  scormPackage : Nat
  completion_status : String := "not_attempted"
  success_status : String := "unknown"
  score_raw : Option ℚ := none
  score_min : Option ℚ := none
  score_max : Option ℚ := none
  total_time : Option String := none
  location : String := ""
  suspend_data : String := ""
deriving DecidableEq, Repr

/-- A `CourseEnrollment` row: `completed_at` is `none` until completion. -/
structure CourseEnrollment where
  user : Nat
  course : Nat
  completed_at : Option Nat := none
deriving DecidableEq, Repr

/-- The SCORM runtime state touched by one attempt: the attempt row, its
`SCORMData` rows `(key, value)`, and the enrollment table. -/
structure SCORMState where
  attempt : SCORMAttemptRec
  data : List (String × String)
  enrollments : List CourseEnrollment
deriving DecidableEq, Repr

/-- Look a key up in an association-list table (`objects.get`). -/
def lookupData (data : List (String × String)) (key : String) : Option String :=
  (data.find? (fun p => p.1 = key)).map (fun p => p.2)

/-- `SCORMData.objects.update_or_create(attempt=…, key=…, value)`: replace
the value of an existing `(attempt, key)` row or append a new row. -/
def upsertData (data : List (String × String)) (key value : String) :
    List (String × String) :=
  if data.any (fun p => p.1 = key) then
    data.map (fun p => if p.1 = key then (key, value) else p)
  else data ++ [(key, value)]

/-- Guarded bulk update shared by the enrollment-completion queries: every
row matching the guard whose `completed_at` is still unset gets
`completed_at = now`; every other row is untouched. -/
def completeMatching (p : CourseEnrollment → Bool) (now : Nat)
    (rows : List CourseEnrollment) : List CourseEnrollment :=
  rows.map (fun e =>
    if p e ∧ e.completed_at = none then { e with completed_at := some now } else e)

/-- `_mark_enrollment_complete`: set `completed_at` on the enrollment of
`attempt.user` in the course whose `scorm_package` is the attempt package,
only where it is currently unset. -/
def _mark_enrollment_complete (courseScorm : Nat → Option Nat) (now : Nat)
    (attempt : SCORMAttemptRec) (rows : List CourseEnrollment) :
    List CourseEnrollment :=
  completeMatching
    (fun e => e.user = attempt.userId ∧ courseScorm e.course = some attempt.scormPackage)
    now rows

/-- `get_scorm_value`: prefer the stored `SCORMData` value; otherwise
synthesize a default for a fixed set of `cmi.core.*` keys, falling back to
the empty string.  (Rendering a stored score as a string abstracts the
Python `str(float)` formatting; no claim depends on it.) -/
def get_scorm_value (attempt : SCORMAttemptRec) (data : List (String × String))
    (key : String) : String :=
  match lookupData data key with
  | some v => v
  | none =>
    let defaults : List (String × String) :=
      [ ("cmi.core.lesson_status", attempt.completion_status)
      , ("cmi.core.student_id", toString attempt.userId)
      , ("cmi.core.student_name",
          if attempt.userFullName = "" then attempt.username else attempt.userFullName)
      , ("cmi.core.credit", "credit")
      , ("cmi.core.entry", "ab-initio")
      , ("cmi.core.lesson_mode", "normal")
      , ("cmi.core.exit", "")
      , ("cmi.core.session_time", "")
      , ("cmi.core.total_time",
          match attempt.total_time with
          | some t => t
          | none => "0000:00:00.00")
      , ("cmi.core.lesson_location", attempt.location)
      , ("cmi.suspend_data", attempt.suspend_data)
      , ("cmi.core.score.raw",
          match attempt.score_raw with
          | some q => toString q
          | none => "")
      , ("cmi.core.score.max",
          match attempt.score_max with
          | some q => toString q
          | none => "")
      , ("cmi.core.score.min",
          match attempt.score_min with
          | some q => toString q
          | none => "") ]
    (lookupData defaults key).getD ""

/-- `set_scorm_value` (the body inside `transaction.atomic()`): promote the
well-known keys to typed attempt fields — `cmi.core.lesson_status` also
fires `_mark_enrollment_complete` when the value is `completed` or
`passed`; the three `cmi.core.score.*` keys parse the value as a float and
silently skip the field update when parsing fails — and unconditionally
upsert the raw string into `SCORMData`.  `parseFloat` abstracts Python
`float(...)`, returning `none` where it would raise `ValueError`. -/
def set_scorm_value (parseFloat : String → Option ℚ) (courseScorm : Nat → Option Nat)
    (now : Nat) (st : SCORMState) (key value : String) : SCORMState :=
  let a := st.attempt
  let step : SCORMAttemptRec × List CourseEnrollment :=
    if key = "cmi.core.lesson_status" then
      let a' := { a with completion_status := value }
      if value = "completed" ∨ value = "passed" then
        (a', _mark_enrollment_complete courseScorm now a' st.enrollments)
      else (a', st.enrollments)
    else if key = "cmi.core.lesson_location" then
      ({ a with location := value }, st.enrollments)
    else if key = "cmi.suspend_data" then
      ({ a with suspend_data := value }, st.enrollments)
    else if key = "cmi.core.score.raw" then
      (match parseFloat value with
        | some q => { a with score_raw := some q }
        | none => a, st.enrollments)
    else if key = "cmi.core.score.max" then
      (match parseFloat value with
        | some q => { a with score_max := some q }
        | none => a, st.enrollments)
    else if key = "cmi.core.score.min" then
      (match parseFloat value with
        | some q => { a with score_min := some q }
        | none => a, st.enrollments)
    else (a, st.enrollments)
  { attempt := step.1
  , enrollments := step.2
  , data := upsertData st.data key value }

/-- The completion statuses declared on the `SCORMAttempt` model field. -/
def scormCompletionChoices : List String :=
  ["incomplete", "completed", "not_attempted", "unknown"]

/-! ## JSON values and the xAPI ingestion pipeline (views.py)

xAPI statements are JSON objects.  `Json` models the values produced by
`json.loads`; Python truthiness on them is `Json.truthy`.
-/

/-- A JSON value (numbers as `ℚ`, object fields in document order). -/
inductive Json where
  | null
  | bool (b : Bool)
  | num (q : ℚ)
  | str (s : String)
  | arr (xs : List Json)
  | obj (fields : List (String × Json))
deriving Repr

/-- Python truthiness of a JSON value. -/
def Json.truthy : Json → Bool
  | .null => false
  | .bool b => b
  | .num q => decide (q ≠ 0)
  | .str s => decide (s ≠ "")
  | .arr xs => !xs.isEmpty
  | .obj fs => !fs.isEmpty

/-- `dict.get(key)` on a JSON object field list. -/
def jget (fs : List (String × Json)) (k : String) : Option Json :=
  (fs.find? (fun p => p.1 = k)).map (fun p => p.2)

/-- The xAPI verb IRIs handled by `_update_h5p_attempt`. -/
def XAPI_COMPLETED : String := "http://adlnet.gov/expapi/verbs/completed"

def XAPI_PASSED : String := "http://adlnet.gov/expapi/verbs/passed"

def XAPI_FAILED : String := "http://adlnet.gov/expapi/verbs/failed"

def XAPI_ANSWERED : String := "http://adlnet.gov/expapi/verbs/answered"

def XAPI_MASTERED : String := "http://adlnet.gov/expapi/verbs/mastered"

def XAPI_CONSUMED : String := "http://activitystrea.ms/schema/1.0/consume"

def XAPI_SCORE_VERBS : List String :=
  [ XAPI_COMPLETED, XAPI_PASSED, XAPI_FAILED, XAPI_ANSWERED, XAPI_MASTERED
  , "http://adlnet.gov/expapi/verbs/scored" ]

/-- `_is_top_level_statement`: a statement is top-level unless
`context.contextActivities.parent` is reachable through dict values and is
truthy and not an empty list.  `statement.get("context", {})` and the inner
`.get` default to an empty object. -/
def _is_top_level_statement (stmt : List (String × Json)) : Bool :=
  match (jget stmt "context").getD (Json.obj []) with
  | .obj contextFields =>
    match (jget contextFields "contextActivities").getD (Json.obj []) with
    | .obj caFields =>
      match jget caFields "parent" with
      | none => true
      | some parent =>
        if parent.truthy = false then true
        else
          match parent with
          | .arr xs => xs.isEmpty
          | _ => false
    | _ => true
  | _ => true

/-- The `parent` value of `context.contextActivities`, when the navigation
the source performs reaches one (each level must be a JSON object). -/
def parentValue (stmt : List (String × Json)) : Option Json :=
  match (jget stmt "context").getD (Json.obj []) with
  | .obj contextFields =>
    match (jget contextFields "contextActivities").getD (Json.obj []) with
    | .obj caFields => jget caFields "parent"
    | _ => none
  | _ => none

/-- The claim notion of a non-empty parent context: the parent is present
and is a non-empty object or a non-empty list. -/
def statementHasNonEmptyParent (stmt : List (String × Json)) : Bool :=
  match parentValue stmt with
  | some (.obj fs) => !fs.isEmpty
  | some (.arr xs) => !xs.isEmpty
  | _ => false

/-- The claim notion of no parent context: the navigation reaches no parent
value at all, or reaches one that is falsy (null, an empty object or an
empty list — the shapes that occur in xAPI statements). -/
def statementParentAbsentOrEmpty (stmt : List (String × Json)) : Bool :=
  match parentValue stmt with
  | none => true
  | some p => p.truthy = false

/-- The fields of an `H5PAttempt` row touched by the ingestion pipeline. -/
structure H5PAttemptRec where
  user : Nat
  activity : Nat
  completion_status : String := "not_attempted"
  success_status : String := "unknown"
  score_raw : Option ℚ := none
  score_max : Option ℚ := none
  score_min : Option ℚ := none
  score_scaled : Option ℚ := none
deriving DecidableEq, Repr

/-- `float(score[key])` on a JSON value: numbers and booleans convert,
strings go through the float parser, anything else raises (modelled as
`none`, matching the `except (ValueError, TypeError)` guard). -/
def jsonFloat (parseFloat : String → Option ℚ) : Json → Option ℚ
  | .num q => some q
  | .bool b => some (if b then 1 else 0)
  | .str s => parseFloat s
  | _ => none

/-- One iteration of the `_apply_xapi_score` field loop: when `key` is in
the score object and its value parses, apply the field setter; otherwise
keep the attempt unchanged. -/
def applyScoreKey (parseFloat : String → Option ℚ) (score : List (String × Json))
    (key : String) (set : H5PAttemptRec → ℚ → H5PAttemptRec)
    (a : H5PAttemptRec) : H5PAttemptRec :=
  match jget score key with
  | some v =>
    match jsonFloat parseFloat v with
    | some q => set a q
    | none => a
  | none => a

/-- The field loop of `_apply_xapi_score` on a result that is a JSON
object: copy `result.score.{raw,max,min,scaled}` onto the attempt when
present and parseable, ignoring unparsable values, in loop order raw,
max, min, scaled.  A missing or non-dict `score` leaves the attempt
unchanged. -/
def applyScoreFields (parseFloat : String → Option ℚ)
    (resultObj : List (String × Json)) (a : H5PAttemptRec) : H5PAttemptRec :=
  match jget resultObj "score" with
  | some (.obj score) =>
    applyScoreKey parseFloat score "scaled" (fun a q => { a with score_scaled := some q })
      (applyScoreKey parseFloat score "min" (fun a q => { a with score_min := some q })
        (applyScoreKey parseFloat score "max" (fun a q => { a with score_max := some q })
          (applyScoreKey parseFloat score "raw" (fun a q => { a with score_raw := some q })
            a)))
  | some _ => a
  | none => a

/-- `_apply_xapi_score` on the raw result value: `result.get("score", {})`
raises an uncaught `AttributeError` when `result` is not a dict — in
particular when it is `None` from a present JSON `null` — modelled as
`none`; on a dict it runs the field loop. -/
def _apply_xapi_score (parseFloat : String → Option ℚ) (result : Json)
    (a : H5PAttemptRec) : Option H5PAttemptRec :=
  match result with
  | .obj resultObj => some (applyScoreFields parseFloat resultObj a)
  | _ => none

/-- `statement.get("result", {})`: the raw result value, defaulting to an
empty object only when the key is absent.  A present `"result": null`
yields `Json.null` (Python `None`): the view's validation skips the
object check when the value is `None`, so such statements reach the
update. -/
def resultValue (stmt : List (String × Json)) : Json :=
  match jget stmt "result" with
  | some v => v
  | none => Json.obj []

/-- The result shape the view's validation is meant to enforce (per its own
comment): the `result` field, when present, is a JSON object. -/
def resultWellFormed (stmt : List (String × Json)) : Bool :=
  match jget stmt "result" with
  | none => true
  | some (.obj _) => true
  | some _ => false

/-- The verb-to-field part of `_update_h5p_attempt`: map the verb IRI to
completion/success updates — `answered` only when the statement is
top-level — then apply score extraction for the score-bearing verbs.
`none` models the uncaught `AttributeError` raised inside
`_apply_xapi_score` when the result value is not a dict: it aborts the
update before `attempt.save()` and before any propagation. -/
def xapiVerbUpdate (parseFloat : String → Option ℚ) (stmt : List (String × Json))
    (verb_id : String) (a : H5PAttemptRec) : Option H5PAttemptRec :=
  let is_top_level := _is_top_level_statement stmt
  let a1 :=
    if verb_id = XAPI_COMPLETED then { a with completion_status := "completed" }
    else if verb_id = XAPI_PASSED then
      { a with completion_status := "completed", success_status := "passed" }
    else if verb_id = XAPI_MASTERED then
      { a with completion_status := "completed", success_status := "passed" }
    else if verb_id = XAPI_FAILED then
      { a with completion_status := "completed", success_status := "failed" }
    else if verb_id = XAPI_CONSUMED then { a with completion_status := "completed" }
    else if verb_id = XAPI_ANSWERED ∧ is_top_level then
      { a with completion_status := "completed" }
    else a
  if verb_id ∈ XAPI_SCORE_VERBS then
    _apply_xapi_score parseFloat (resultValue stmt) a1
  else some a1

/-- The trigger condition at the end of `_update_h5p_attempt`: the
unconditional completion verbs, or a top-level `answered`. -/
def xapiTriggersCompletion (stmt : List (String × Json)) (verb_id : String) : Bool :=
  verb_id ∈ [XAPI_COMPLETED, XAPI_PASSED, XAPI_MASTERED, XAPI_FAILED, XAPI_CONSUMED]
    || (verb_id = XAPI_ANSWERED && _is_top_level_statement stmt)

/-! ## Lesson/course completion propagation (views.py)

`LessonPage` bodies are StreamField block lists; a lesson belongs (via the
page tree) to a parent that may or may not be a `CoursePage` — modelled as
`parent : Option Nat` where `none` stands for a non-course parent.  The
`body__icontains` reverse lookup in `_mark_h5p_enrollment_complete`
(matching the serialized block `{"activity": <id>}`) is modelled
structurally: a lesson matches when one of its blocks references the
activity id.
-/

/-- One StreamField block of a lesson body.  The chooser value of an
`h5p_activity` block resolves to an activity or to `None` when the
referenced snippet was deleted. -/
inductive LessonBlock where
  | paragraph
  | h5p_activity (activity : Option Nat)
deriving DecidableEq, Repr

/-- A `LessonPage`: its id, its page-tree parent (a course id, or `none`
when the parent is not a `CoursePage`), its live flag and its body. -/
structure LessonPageRec where
  id : Nat
  parent : Option Nat
  live : Bool
  body : List LessonBlock
deriving DecidableEq, Repr

/-- The mutable H5P runtime state: enrollments, attempt rows and
`LessonCompletion` rows `(user, lesson)`. -/
structure H5PState where
  enrollments : List CourseEnrollment
  attempts : List H5PAttemptRec
  lessonCompletions : List (Nat × Nat)
deriving DecidableEq, Repr

/-- `_collect_lesson_activity_ids`: activity pks referenced by the body
(skipping deleted references). -/
def _collect_lesson_activity_ids (lesson : LessonPageRec) : List Nat :=
  lesson.body.filterMap (fun b =>
    match b with
    | .h5p_activity a => a
    | .paragraph => none)

/-- Does the state record a completed attempt of `user` on `activity`? -/
def hasCompletedAttempt (st : H5PState) (user activity : Nat) : Bool :=
  st.attempts.any (fun t =>
    t.user = user ∧ t.activity = activity ∧ t.completion_status = "completed")

/-- `_try_complete_lesson`: when the lesson has activities and every one of
them has a completed attempt for the user, get-or-create the
`LessonCompletion` row and report success; otherwise change nothing. -/
def _try_complete_lesson (st : H5PState) (user : Nat) (lesson : LessonPageRec) :
    Bool × H5PState :=
  let activity_ids := _collect_lesson_activity_ids lesson
  if activity_ids = [] then (false, st)
  else if activity_ids.all (fun a => hasCompletedAttempt st user a) then
    if (user, lesson.id) ∈ st.lessonCompletions then (true, st)
    else (true, { st with lessonCompletions := st.lessonCompletions ++ [(user, lesson.id)] })
  else (false, st)

/-- `_try_complete_course`: the trackable lessons are the live children of
the course whose bodies reference at least one activity; when there is at
least one and each has a `LessonCompletion` for the user, set the
enrollment `completed_at` where still unset. -/
def _try_complete_course (lessons : List LessonPageRec) (now : Nat)
    (st : H5PState) (user course : Nat) : H5PState :=
  let trackable := (lessons.filter (fun l =>
    l.parent = some course ∧ l.live ∧ _collect_lesson_activity_ids l ≠ [])).map
      (fun l => l.id)
  if trackable = [] then st
  else if trackable.all (fun lid => (user, lid) ∈ st.lessonCompletions) then
    { st with
      enrollments :=
        completeMatching (fun e => e.user = user ∧ e.course = course) now st.enrollments }
  else st

/-- `_mark_h5p_enrollment_complete`: for each live lesson referencing the
updated activity whose parent is a course the user is enrolled in, run the
lesson check and — when the lesson is complete — the course check. -/
def _mark_h5p_enrollment_complete (lessons : List LessonPageRec) (now : Nat)
    (st : H5PState) (attempt : H5PAttemptRec) : H5PState :=
  let enrolledCourses :=
    (st.enrollments.filter (fun e => e.user = attempt.user)).map (fun e => e.course)
  if enrolledCourses = [] then st
  else
    let lessonPages := lessons.filter (fun l =>
      l.live ∧ attempt.activity ∈ _collect_lesson_activity_ids l)
    lessonPages.foldl (fun acc lesson =>
      match lesson.parent with
      | none => acc
      | some course =>
        if course ∈ enrolledCourses then
          let step := _try_complete_lesson acc attempt.user lesson
          if step.1 then _try_complete_course lessons now step.2 attempt.user course
          else step.2
        else acc) st

/-- `H5PAttempt.objects.get_or_create(user=…, activity=…)`. -/
def getOrCreateAttempt (rows : List H5PAttemptRec) (user activity : Nat) :
    H5PAttemptRec × List H5PAttemptRec :=
  match rows.find? (fun r => r.user = user ∧ r.activity = activity) with
  | some r => (r, rows)
  | none =>
    let r : H5PAttemptRec := { user := user, activity := activity }
    (r, rows ++ [r])

/-- `attempt.save()`: write the updated row back over its `(user, activity)`
slot. -/
def saveAttempt (rows : List H5PAttemptRec) (a : H5PAttemptRec) :
    List H5PAttemptRec :=
  rows.map (fun r => if r.user = a.user ∧ r.activity = a.activity then a else r)

/-- `_update_h5p_attempt` acting on the whole state: update and save the
attempt fields, then run completion propagation for the triggering verbs.
When the score extraction raises (a present non-object result on a
score-bearing verb), neither `attempt.save()` nor the propagation runs —
the exception escapes the view as a server error — so the persisted state
is returned unchanged. -/
def _update_h5p_attempt (parseFloat : String → Option ℚ)
    (lessons : List LessonPageRec) (now : Nat) (st : H5PState)
    (attempt : H5PAttemptRec) (stmt : List (String × Json)) (verb_id : String) :
    H5PState :=
  match xapiVerbUpdate parseFloat stmt verb_id attempt with
  | none => st
  | some a2 =>
    let st2 := { st with attempts := saveAttempt st.attempts a2 }
    if xapiTriggersCompletion stmt verb_id then
      _mark_h5p_enrollment_complete lessons now st2 a2
    else st2

/-- The happy path of `h5p_xapi_view` after validation: lazily create the
attempt, extract the verb IRI (`""` when `verb.id` is missing or not a
string) and update the attempt.  The append-only `H5PXAPIStatement` audit
row influences nothing downstream and is not modelled. -/
def h5pIngest (parseFloat : String → Option ℚ) (lessons : List LessonPageRec)
    (now : Nat) (st : H5PState) (user activity : Nat)
    (stmt : List (String × Json)) : H5PState :=
  let created := getOrCreateAttempt st.attempts user activity
  let st1 := { st with attempts := created.2 }
  let verb_id :=
    match jget stmt "verb" with
    | some (.obj verbFields) =>
      match jget verbFields "id" with
      | some (.str s) => s
      | _ => ""
    | _ => ""
  _update_h5p_attempt parseFloat lessons now st1 created.1 stmt verb_id

/-! ## Retry-on-contention (views.py, `retry_on_db_lock`)

The decorated body is abstracted as an oracle giving the outcome of its
i-th execution: success, an `OperationalError` with a message, or any
other exception (which the decorator does not catch).
-/

/-- Outcome of one execution of the wrapped function. -/
inductive CallOutcome (α : Type) where
  | ok (a : α)
  | operationalError (msg : String)
  | otherError
deriving DecidableEq, Repr

/-- An exception escaping the decorator. -/
inductive RaisedError where
  | operationalError (msg : String)
  | otherError
deriving DecidableEq, Repr

/-- What a decorated call produced: a value or a raised exception, together
with the sleeps performed (in order) and the number of executions of the
wrapped function. -/
inductive RetryOut (α : Type) where
  | ok (a : α) (slept : List ℚ) (calls : Nat)
  | raised (e : RaisedError) (slept : List ℚ) (calls : Nat)
deriving DecidableEq, Repr

/-- The retry condition: `"database is locked" in str(e).lower()`
(lowercasing character by character). -/
def isDbLocked (msg : String) : Bool :=
  isSubChars "database is locked".data (msg.data.map Char.toLower)

/-- The `while attempt < max_attempts` loop of `retry_on_db_lock.wrapper`,
with `rem = max_attempts - attempt`.  On an `OperationalError` the counter
is bumped first — an exhausted budget re-raises even before the locked
check — then a non-locked message re-raises, and otherwise the loop sleeps
`curDelay`, multiplies it by `backoff` and retries.  The `rem = 0` base
case is the `return func(...)` after the loop, reachable only when the
decorator was configured with `max_attempts = 0`. -/
def retryGo {α : Type} (oracle : Nat → CallOutcome α) (backoff : ℚ) :
    Nat → Nat → ℚ → List ℚ → RetryOut α
  | 0, i, _, slept =>
    match oracle i with
    | .ok a => .ok a slept (i + 1)
    | .operationalError m => .raised (.operationalError m) slept (i + 1)
    | .otherError => .raised .otherError slept (i + 1)
  | rem + 1, i, curDelay, slept =>
    match oracle i with
    | .ok a => .ok a slept (i + 1)
    | .otherError => .raised .otherError slept (i + 1)
    | .operationalError m =>
      if rem = 0 then .raised (.operationalError m) slept (i + 1)
      else if isDbLocked m = false then .raised (.operationalError m) slept (i + 1)
      else retryGo oracle backoff rem (i + 1) (curDelay * backoff) (slept ++ [curDelay])

/-- `retry_on_db_lock(max_attempts, delay, backoff)` applied to a wrapped
function whose executions behave as `oracle`. -/
def retry_on_db_lock {α : Type} (maxAttempts : Nat) (delay backoff : ℚ)
    (oracle : Nat → CallOutcome α) : RetryOut α :=
  retryGo oracle backoff maxAttempts 0 delay []

/-- The decoration on `set_scorm_value`:
`@retry_on_db_lock(max_attempts=5, delay=0.05, backoff=1.5)`. -/
def set_scorm_value_retrying (oracle : Nat → CallOutcome SCORMState) :
    RetryOut SCORMState :=
  retry_on_db_lock 5 (1 / 20) (3 / 2) oracle

/-- The exponential backoff schedule: the delay slept before retry `j` is
`delay * backoff ^ j`. -/
def geomDelays (delay backoff : ℚ) : Nat → List ℚ
  | 0 => []
  | k + 1 => delay :: geomDelays (delay * backoff) backoff k

/-! ## Content serving (views.py, `ServeScormContentView`)

MIME resolution and the storage backend are abstracted as parameters; the
response records its kind (proxied file or redirect) and its headers.
-/

/-- The settings consumed by the serving view. -/
structure ServeConfig where
  redirectMedia : Bool
  cacheRules : Option (List (String × String))
  contentBase : String

/-- What kind of response the view returned. -/
inductive ResponseKind where
  | redirect (location : String)
  | file (path : String)
deriving DecidableEq, Repr

/-- An HTTP response with its header assignments in order. -/
structure HttpResponse where
  kind : ResponseKind
  headers : List (String × String)
deriving DecidableEq, Repr

/-- Exceptions the view can raise. -/
inductive ServeError where
  | http404
  | permissionDenied
  | suspiciousOperation
deriving DecidableEq, Repr

/-- Outcome of `default_storage.url(storage_path)` inside the redirect
branch. -/
inductive RedirectUrlOutcome where
  | ok (url : String)
  | http404
  | permissionDenied
  | suspiciousOperation
  | otherExc
deriving Repr

/-- `normalize_content_path`: normalize separators and the path lexically,
then 404 on empty, `.`, absolute or climbing paths. -/
def normalize_content_path (contentPath : String) : Option String :=
  let normalized := normpath (String.mk (replaceBsChars contentPath.data))
  if normalized = "" ∨ normalized = "." then none
  else if strStartsWith normalized "/" ∨ strStartsWith normalized ".." then none
  else some normalized

/-- `get_cache_control`: exact MIME match first, then the longest matching
`type/*` wildcard (first among equals, as Python `max` ties), then the
`default` key; a non-dict setting yields no header. -/
def get_cache_control (rules? : Option (List (String × String)))
    (content_type : String) : Option String :=
  match rules? with
  | none => none
  | some rules =>
    match lookupData rules content_type with
    | some v => some v
    | none =>
      let wildcardMatches := (rules.filter (fun p =>
        strEndsWith p.1 "/*" ∧ strStartsWith content_type
          (String.mk p.1.data.dropLast))).map
          (fun p => (p.1.data.length, p.2))
      match wildcardMatches.foldl (fun best p =>
          match best with
          | none => some p
          | some b => if p.1 > b.1 then some p else some b) none with
      | some best => some best.2
      | none => lookupData rules "default"

/-- `apply_security_headers`: set the two anti-framing headers. -/
def apply_security_headers (r : HttpResponse) : HttpResponse :=
  { r with headers := r.headers
      ++ [ ("X-Frame-Options", "SAMEORIGIN")
         , ("Content-Security-Policy", "frame-ancestors \x27self\x27") ] }

/-- `apply_cache_header`: set `Cache-Control` when the resolved value is
truthy. -/
def apply_cache_header (cfg : ServeConfig) (r : HttpResponse)
    (content_type : String) : HttpResponse :=
  match get_cache_control cfg.cacheRules content_type with
  | some v => if v = "" then r else { r with headers := r.headers ++ [("Cache-Control", v)] }
  | none => r

/-- `ServeScormContentView.get`: normalize and validate the path, resolve
the content type, then either redirect (audio/video under redirect mode) —
applying only the cache header — or proxy the file, applying the security
headers and then the cache header.  `contentTypeOf` abstracts
`mimetypes.guess_type`, `storageOpen` abstracts `default_storage.open`
succeeding, `storageUrl` abstracts `default_storage.url`. -/
def ServeScormContentView.get (cfg : ServeConfig)
    (contentTypeOf : String → Option String) (storageOpen : String → Bool)
    (storageUrl : String → RedirectUrlOutcome) (content_path : String) :
    Except ServeError HttpResponse :=
  match normalize_content_path content_path with
  | none => .error .http404
  | some normalized =>
    let storage_path := posixJoin (rstripSlash cfg.contentBase) normalized
    let content_type := (contentTypeOf normalized).getD "application/octet-stream"
    if cfg.redirectMedia ∧
        (strStartsWith content_type "audio/" ∨ strStartsWith content_type "video/") then
      match storageUrl storage_path with
      | .ok url =>
        .ok (apply_cache_header cfg { kind := .redirect url, headers := [] } content_type)
      | .http404 => .error .http404
      | .permissionDenied => .error .permissionDenied
      | .suspiciousOperation => .error .suspiciousOperation
      | .otherExc => .error .http404
    else if storageOpen storage_path then
      .ok (apply_cache_header cfg
        (apply_security_headers { kind := .file storage_path, headers := [] })
        content_type)
    else .error .http404

/-- `ServeH5PContentView.get`: the subclass overrides only the content base
directory, which is already the `contentBase` field of the
configuration. -/
def ServeH5PContentView.get (cfg : ServeConfig)
    (contentTypeOf : String → Option String) (storageOpen : String → Bool)
    (storageUrl : String → RedirectUrlOutcome) (content_path : String) :
    Except ServeError HttpResponse :=
  ServeScormContentView.get cfg contentTypeOf storageOpen storageUrl content_path

/-- Does a response carry both anti-framing headers? -/
def responseHasFrameHeaders (r : HttpResponse) : Bool :=
  r.headers.any (fun h => h.1 = "X-Frame-Options")
    && r.headers.any (fun h => h.1 = "Content-Security-Policy")

/-! ## Concrete fixtures used by witnesses and counterexamples -/

/-- A float parser that accepts nothing (used where only parse failure
matters). -/
def pfNone : String → Option ℚ := fun _ => none

/-- A course table where course 10 carries SCORM package 5. -/
def sampleCourseScorm : Nat → Option Nat := fun c => if c = 10 then some 5 else none

/-- A fresh SCORM attempt of user 7 on package 5. -/
def sampleSCORMAttempt : SCORMAttemptRec :=
  { userId := 7, userFullName := "Ada Lovelace", username := "ada", scormPackage := 5 }

/-- A SCORM state: the sample attempt, no data rows, user 7 enrolled in
course 10 and not yet complete. -/
def sampleSCORMState : SCORMState :=
  { attempt := sampleSCORMAttempt
  , data := []
  , enrollments := [{ user := 7, course := 10 }] }

/-- Course 10 with two live trackable lessons: lesson 21 embeds activity 31
and lesson 22 embeds activity 32. -/
def c2Lessons : List LessonPageRec :=
  [ { id := 21, parent := some 10, live := true, body := [.h5p_activity (some 31)] }
  , { id := 22, parent := some 10, live := true, body := [.h5p_activity (some 32)] } ]

/-- An xAPI `completed` statement with no context. -/
def c2Stmt : List (String × Json) :=
  [("verb", Json.obj [("id", Json.str XAPI_COMPLETED)])]

/-- The initial H5P state of the two-lesson scenario: user 7 enrolled in
course 10, no attempts, no lesson completions. -/
def c2State0 : H5PState :=
  { enrollments := [{ user := 7, course := 10 }]
  , attempts := []
  , lessonCompletions := [] }

/-- An `answered` statement of a child question inside a container: the
parent context is a non-empty list. -/
def childAnsweredStmt : List (String × Json) :=
  [ ("verb", Json.obj [("id", Json.str XAPI_ANSWERED)])
  , ("context", Json.obj
      [("contextActivities", Json.obj
        [("parent", Json.arr [Json.obj [("id", Json.str "container-iri")]])])]) ]

/-- A top-level `answered` statement: no context at all. -/
def topAnsweredStmt : List (String × Json) :=
  [("verb", Json.obj [("id", Json.str XAPI_ANSWERED)])]

/-- A `passed` statement with a present `"result": null` — it passes the
view's validation (the object check is skipped for `None`) yet makes
`_apply_xapi_score` raise. -/
def nullResultPassedStmt : List (String × Json) :=
  [("verb", Json.obj [("id", Json.str XAPI_PASSED)]), ("result", Json.null)]

/-- A top-level `answered` statement with a present `"result": null`. -/
def nullResultAnsweredStmt : List (String × Json) :=
  [("verb", Json.obj [("id", Json.str XAPI_ANSWERED)]), ("result", Json.null)]

/-- A `passed` statement with a well-formed result object. -/
def passedResultStmt : List (String × Json) :=
  [ ("verb", Json.obj [("id", Json.str XAPI_PASSED)])
  , ("result", Json.obj [("score", Json.obj [("raw", Json.num 1)])]) ]

/-- A fresh H5P attempt of user 7 on activity 31. -/
def sampleH5PAttempt : H5PAttemptRec := { user := 7, activity := 31 }

/-- An oracle whose first three executions hit the SQLite contention error
and whose fourth succeeds. -/
def lockedThriceOracle : Nat → CallOutcome Nat :=
  fun i => if i < 3 then .operationalError "database is locked" else .ok 42

/-- A serving configuration with redirect mode enabled and no cache rules. -/
def redirectCfg : ServeConfig :=
  { redirectMedia := true, cacheRules := none, contentBase := "scorm_content/" }

/-- A serving configuration with redirect mode disabled. -/
def proxyCfg : ServeConfig :=
  { redirectMedia := false, cacheRules := none, contentBase := "scorm_content/" }

/-- MIME resolution: `.mp4` is video, everything else HTML. -/
def mp4ContentTypeOf : String → Option String :=
  fun p => if strEndsWith p ".mp4" then some "video/mp4" else some "text/html"

/-- A storage backend on which every open succeeds. -/
def storageOpenAll : String → Bool := fun _ => true

/-- A storage backend that resolves every URL. -/
def storageUrlOk : String → RedirectUrlOutcome :=
  fun p => .ok ("https://cdn.example/" ++ p)

/-! ## Helper lemmas -/

/-- Upserting a key and looking it up returns the upserted value. -/
theorem lookupData_upsertData (d : List (String × String)) (k v : String) :
    lookupData (upsertData d k v) k = some v := by
  induction d with
  | nil => simp [upsertData, lookupData]
  | cons p rest ih =>
    by_cases hp : p.1 = k
    · simp [upsertData, lookupData, hp]
    · rcases h : rest.any (fun q => q.1 = k) with _ | _
      · simp [upsertData, lookupData, hp, h] at ih ⊢
        exact ih
      · simp [upsertData, lookupData, hp, h] at ih ⊢
        exact ih

/-- The score field loop touches only score fields: completion and success
statuses are preserved. -/
theorem applyScoreFields_status (pf : String → Option ℚ)
    (resultObj : List (String × Json)) (a : H5PAttemptRec) :
    (applyScoreFields pf resultObj a).completion_status = a.completion_status ∧
    (applyScoreFields pf resultObj a).success_status = a.success_status := by
  have step : ∀ (score : List (String × Json)) (key : String)
      (set : H5PAttemptRec → ℚ → H5PAttemptRec) (b : H5PAttemptRec),
      (∀ c q, (set c q).completion_status = c.completion_status ∧
        (set c q).success_status = c.success_status) →
      (applyScoreKey pf score key set b).completion_status = b.completion_status ∧
      (applyScoreKey pf score key set b).success_status = b.success_status := by
    intro score key set b hset
    unfold applyScoreKey
    rcases h1 : jget score key with _ | v
    · exact ⟨rfl, rfl⟩
    · dsimp only
      rcases h2 : jsonFloat pf v with _ | q
      · exact ⟨rfl, rfl⟩
      · exact hset b q
  unfold applyScoreFields
  rcases hsc : jget resultObj "score" with _ | j
  · exact ⟨rfl, rfl⟩
  · cases j with
    | obj score =>
      have h1 := step score "raw" (fun a q => { a with score_raw := some q }) a
        (fun _ _ => ⟨rfl, rfl⟩)
      have h2 := step score "max" (fun a q => { a with score_max := some q })
        (applyScoreKey pf score "raw" (fun a q => { a with score_raw := some q }) a)
        (fun _ _ => ⟨rfl, rfl⟩)
      have h3 := step score "min" (fun a q => { a with score_min := some q })
        (applyScoreKey pf score "max" (fun a q => { a with score_max := some q })
          (applyScoreKey pf score "raw" (fun a q => { a with score_raw := some q }) a))
        (fun _ _ => ⟨rfl, rfl⟩)
      have h4 := step score "scaled" (fun a q => { a with score_scaled := some q })
        (applyScoreKey pf score "min" (fun a q => { a with score_min := some q })
          (applyScoreKey pf score "max" (fun a q => { a with score_max := some q })
            (applyScoreKey pf score "raw" (fun a q => { a with score_raw := some q }) a)))
        (fun _ _ => ⟨rfl, rfl⟩)
      exact ⟨by rw [h4.1, h3.1, h2.1, h1.1], by rw [h4.2, h3.2, h2.2, h1.2]⟩
    | null => exact ⟨rfl, rfl⟩
    | bool b => exact ⟨rfl, rfl⟩
    | num q => exact ⟨rfl, rfl⟩
    | str s => exact ⟨rfl, rfl⟩
    | arr xs => exact ⟨rfl, rfl⟩

/-- When `_apply_xapi_score` completes without raising, the statuses of the
returned attempt are those of the input attempt. -/
theorem apply_xapi_score_status (pf : String → Option ℚ) (result : Json)
    (a b : H5PAttemptRec) (h : _apply_xapi_score pf result a = some b) :
    b.completion_status = a.completion_status ∧
    b.success_status = a.success_status := by
  unfold _apply_xapi_score at h
  cases result with
  | obj resultObj =>
    injection h with h'
    rw [← h']
    exact applyScoreFields_status pf resultObj a
  | null => exact Option.noConfusion h
  | bool x => exact Option.noConfusion h
  | num x => exact Option.noConfusion h
  | str x => exact Option.noConfusion h
  | arr x => exact Option.noConfusion h

/-- On a statement whose result, when present, is an object, the score
application does not raise: it runs the field loop on that object (or on
the empty default). -/
theorem apply_xapi_score_resultValue (pf : String → Option ℚ)
    (stmt : List (String × Json)) (a : H5PAttemptRec)
    (h : resultWellFormed stmt = true) :
    ∃ fs, resultValue stmt = Json.obj fs ∧
      _apply_xapi_score pf (resultValue stmt) a
        = some (applyScoreFields pf fs a) := by
  unfold resultWellFormed at h
  unfold resultValue
  rcases hr : jget stmt "result" with _ | v
  · exact ⟨[], rfl, rfl⟩
  · rw [hr] at h
    cases v with
    | obj fs => exact ⟨fs, rfl, rfl⟩
    | null => simp at h
    | bool x => simp at h
    | num x => simp at h
    | str x => simp at h
    | arr x => simp at h

/-! ## Claim theorems -/

/-- Claim C7: RTE round-trip.  For every key and string value, SetValue
followed by GetValue on the same attempt returns that value, because every
SetValue upserts the raw string into the per-attempt key/value store and
GetValue prefers the stored value over synthesized defaults. -/
theorem C7_rte_round_trip (parseFloat : String → Option ℚ)
    (courseScorm : Nat → Option Nat) (now : Nat) (st : SCORMState)
    (key value : String) :
    get_scorm_value (set_scorm_value parseFloat courseScorm now st key value).attempt
      (set_scorm_value parseFloat courseScorm now st key value).data key = value := by
  show get_scorm_value _ (upsertData st.data key value) key = value
  unfold get_scorm_value
  rw [lookupData_upsertData]

/-- Claim C8: a SetValue on one of the three `cmi.core.score.*` keys whose
value does not parse as a float leaves the attempt row entirely unchanged
(no error is raised: the parse failure is swallowed) while still
persisting the raw value in the key/value store, so GetValue returns the
raw string. -/
theorem C8_unparsable_score (parseFloat : String → Option ℚ)
    (courseScorm : Nat → Option Nat) (now : Nat) (st : SCORMState) (v : String)
    (h : parseFloat v = none) :
    ((set_scorm_value parseFloat courseScorm now st "cmi.core.score.raw" v).attempt
        = st.attempt ∧
      get_scorm_value
        (set_scorm_value parseFloat courseScorm now st "cmi.core.score.raw" v).attempt
        (set_scorm_value parseFloat courseScorm now st "cmi.core.score.raw" v).data
        "cmi.core.score.raw" = v) ∧
    ((set_scorm_value parseFloat courseScorm now st "cmi.core.score.max" v).attempt
        = st.attempt ∧
      get_scorm_value
        (set_scorm_value parseFloat courseScorm now st "cmi.core.score.max" v).attempt
        (set_scorm_value parseFloat courseScorm now st "cmi.core.score.max" v).data
        "cmi.core.score.max" = v) ∧
    ((set_scorm_value parseFloat courseScorm now st "cmi.core.score.min" v).attempt
        = st.attempt ∧
      get_scorm_value
        (set_scorm_value parseFloat courseScorm now st "cmi.core.score.min" v).attempt
        (set_scorm_value parseFloat courseScorm now st "cmi.core.score.min" v).data
        "cmi.core.score.min" = v) := by
  refine ⟨⟨?_, ?_⟩, ⟨?_, ?_⟩, ⟨?_, ?_⟩⟩ <;>
    first
      | (show get_scorm_value _ (upsertData st.data _ v) _ = v
         unfold get_scorm_value
         rw [lookupData_upsertData])
      | simp [set_scorm_value, h]

/-- Claim C8 witness: the unparsable value `"abc"` on the sample state. -/
theorem C8_unparsable_score_witness :
    pfNone "abc" = none ∧
    ((set_scorm_value pfNone sampleCourseScorm 0 sampleSCORMState
        "cmi.core.score.raw" "abc").attempt = sampleSCORMState.attempt ∧
      get_scorm_value
        (set_scorm_value pfNone sampleCourseScorm 0 sampleSCORMState
          "cmi.core.score.raw" "abc").attempt
        (set_scorm_value pfNone sampleCourseScorm 0 sampleSCORMState
          "cmi.core.score.raw" "abc").data
        "cmi.core.score.raw" = "abc") :=
  ⟨rfl, (C8_unparsable_score pfNone sampleCourseScorm 0 sampleSCORMState "abc" rfl).1⟩

/-- Claim C10, amended: `SetValue("cmi.core.lesson_status", v)` stores `v`
verbatim in `completion_status` for every string `v` — model choices are
not enforced on save — so the reachable values are not confined to the
declared choice set. -/
theorem C10_lesson_status_stored_verbatim (parseFloat : String → Option ℚ)
    (courseScorm : Nat → Option Nat) (now : Nat) (st : SCORMState) (v : String) :
    (set_scorm_value parseFloat courseScorm now st
      "cmi.core.lesson_status" v).attempt.completion_status = v := by
  unfold set_scorm_value
  (repeat' split) <;> first | rfl | (exfalso; simp_all)

/-- Claim C10 counterexample: after `SetValue("cmi.core.lesson_status",
"passed")` the attempt's `completion_status` is `"passed"`, which is not
in the declared completion-status choice set. -/
theorem C10_counterexample :
    (set_scorm_value pfNone sampleCourseScorm 0 sampleSCORMState
      "cmi.core.lesson_status" "passed").attempt.completion_status = "passed" ∧
    "passed" ∉ scormCompletionChoices := by
  exact ⟨rfl, by decide⟩

/-- Claim C4 (code bug): for every statement whose result field, when
present, is a JSON object — the shape the view's validation is meant to
enforce, per its own comment — `passed` and `mastered` set
`completion_status = "completed"` and `success_status = "passed"`, and
`failed` sets `completion_status = "completed"` and
`success_status = "failed"`.  But a statement with a present
`"result": null` slips through that validation (the object check is
skipped for `None`) and the update raises an uncaught `AttributeError`
before `attempt.save()`: at that failing input the update returns no
attempt and the persisted state is unchanged. -/
theorem C4_verb_precedence :
    (∀ (parseFloat : String → Option ℚ) (stmt : List (String × Json))
        (a : H5PAttemptRec),
      resultWellFormed stmt = true →
      ((xapiVerbUpdate parseFloat stmt XAPI_PASSED a).map
          (fun b => b.completion_status) = some "completed" ∧
        (xapiVerbUpdate parseFloat stmt XAPI_PASSED a).map
          (fun b => b.success_status) = some "passed") ∧
      ((xapiVerbUpdate parseFloat stmt XAPI_MASTERED a).map
          (fun b => b.completion_status) = some "completed" ∧
        (xapiVerbUpdate parseFloat stmt XAPI_MASTERED a).map
          (fun b => b.success_status) = some "passed") ∧
      ((xapiVerbUpdate parseFloat stmt XAPI_FAILED a).map
          (fun b => b.completion_status) = some "completed" ∧
        (xapiVerbUpdate parseFloat stmt XAPI_FAILED a).map
          (fun b => b.success_status) = some "failed")) ∧
    xapiVerbUpdate pfNone nullResultPassedStmt XAPI_PASSED sampleH5PAttempt
      = none ∧
    _update_h5p_attempt pfNone c2Lessons 5 c2State0 sampleH5PAttempt
      nullResultPassedStmt XAPI_PASSED = c2State0 := by
  refine ⟨?_, by decide, by decide⟩
  intro pf stmt a h
  have main : ∀ a1 : H5PAttemptRec,
      (_apply_xapi_score pf (resultValue stmt) a1).map
        (fun b => b.completion_status) = some a1.completion_status ∧
      (_apply_xapi_score pf (resultValue stmt) a1).map
        (fun b => b.success_status) = some a1.success_status := by
    intro a1
    obtain ⟨fs, hfs, happ⟩ := apply_xapi_score_resultValue pf stmt a1 h
    rw [happ]
    constructor
    · simp only [Option.map_some']
      rw [(applyScoreFields_status pf fs a1).1]
    · simp only [Option.map_some']
      rw [(applyScoreFields_status pf fs a1).2]
  have hcp : xapiVerbUpdate pf stmt XAPI_PASSED a
      = _apply_xapi_score pf (resultValue stmt)
        { a with completion_status := "completed", success_status := "passed" } := by
    simp [xapiVerbUpdate, XAPI_PASSED, XAPI_MASTERED, XAPI_FAILED, XAPI_COMPLETED,
      XAPI_CONSUMED, XAPI_ANSWERED, XAPI_SCORE_VERBS]
  have hcm : xapiVerbUpdate pf stmt XAPI_MASTERED a
      = _apply_xapi_score pf (resultValue stmt)
        { a with completion_status := "completed", success_status := "passed" } := by
    simp [xapiVerbUpdate, XAPI_PASSED, XAPI_MASTERED, XAPI_FAILED, XAPI_COMPLETED,
      XAPI_CONSUMED, XAPI_ANSWERED, XAPI_SCORE_VERBS]
  have hcf : xapiVerbUpdate pf stmt XAPI_FAILED a
      = _apply_xapi_score pf (resultValue stmt)
        { a with completion_status := "completed", success_status := "failed" } := by
    simp [xapiVerbUpdate, XAPI_PASSED, XAPI_MASTERED, XAPI_FAILED, XAPI_COMPLETED,
      XAPI_CONSUMED, XAPI_ANSWERED, XAPI_SCORE_VERBS]
  exact ⟨⟨by rw [hcp]; exact (main _).1, by rw [hcp]; exact (main _).2⟩,
    ⟨by rw [hcm]; exact (main _).1, by rw [hcm]; exact (main _).2⟩,
    ⟨by rw [hcf]; exact (main _).1, by rw [hcf]; exact (main _).2⟩⟩

/-- Claim C4 witness: a `passed` statement with a well-formed result
object sets both statuses on the sample attempt. -/
theorem C4_verb_precedence_witness :
    resultWellFormed passedResultStmt = true ∧
    (xapiVerbUpdate pfNone passedResultStmt XAPI_PASSED sampleH5PAttempt).map
        (fun b => b.completion_status) = some "completed" ∧
    (xapiVerbUpdate pfNone passedResultStmt XAPI_PASSED sampleH5PAttempt).map
        (fun b => b.success_status) = some "passed" :=
  ⟨by decide
  , ((C4_verb_precedence.1 pfNone passedResultStmt sampleH5PAttempt (by decide)).1).1
  , ((C4_verb_precedence.1 pfNone passedResultStmt sampleH5PAttempt (by decide)).1).2⟩

/-- The top-level test in terms of the reached parent value: top-level
exactly when the navigation reaches no parent, or a falsy one, or an
empty list. -/
theorem is_top_level_eq_parentValue (stmt : List (String × Json)) :
    _is_top_level_statement stmt =
      (match parentValue stmt with
        | none => true
        | some p =>
          if p.truthy = false then true
          else
            match p with
            | .arr xs => xs.isEmpty
            | _ => false) := by
  unfold _is_top_level_statement parentValue
  rcases hc : (jget stmt "context").getD (Json.obj []) with _ | _ | _ | _ | _ | cf
    <;> try rfl
  dsimp only
  rcases hca : (jget cf "contextActivities").getD (Json.obj []) with _ | _ | _ | _ | _ | caf
    <;> rfl

/-- A statement with a non-empty object/list parent is not top-level. -/
theorem not_top_level_of_nonEmptyParent (stmt : List (String × Json))
    (h : statementHasNonEmptyParent stmt = true) :
    _is_top_level_statement stmt = false := by
  rw [is_top_level_eq_parentValue]
  unfold statementHasNonEmptyParent at h
  rcases hp : parentValue stmt with _ | p
  · rw [hp] at h; simp at h
  · rw [hp] at h
    cases p with
    | arr xs =>
      simp only at h ⊢
      simp [Json.truthy, h]
      try simpa using h
    | obj fs =>
      simp only at h ⊢
      simp [Json.truthy, h]
      try simpa using h
    | null => simp at h
    | bool b => simp at h
    | num q => simp at h
    | str s => simp at h

/-- A statement whose parent is absent or falsy is top-level. -/
theorem top_level_of_parentAbsentOrEmpty (stmt : List (String × Json))
    (h : statementParentAbsentOrEmpty stmt = true) :
    _is_top_level_statement stmt = true := by
  rw [is_top_level_eq_parentValue]
  unfold statementParentAbsentOrEmpty at h
  rcases hp : parentValue stmt with _ | p
  · rfl
  · rw [hp] at h
    simp only at h
    simp [h]

/-- Claim C3 (code bug): an `answered` statement with a present, non-empty
parent context (non-empty object or non-empty list) never completes the
attempt — whenever the update finishes, the in-memory completion status is
preserved, no propagation is triggered, and the ingestion step changes
neither enrollments nor lesson completions.  An `answered` statement whose
parent context is absent or empty sets `completion_status = "completed"`
and triggers propagation whenever its result field, when present, is a
JSON object.  But a top-level `answered` with a present `"result": null`
slips through the view validation and the update raises an uncaught
`AttributeError` before `attempt.save()`: at that failing input nothing is
set and the state is unchanged. -/
theorem C3_answered_top_level_filter :
    (∀ (parseFloat : String → Option ℚ) (lessons : List LessonPageRec) (now : Nat)
        (st : H5PState) (a : H5PAttemptRec) (stmt : List (String × Json)),
      statementHasNonEmptyParent stmt = true →
      ((xapiVerbUpdate parseFloat stmt XAPI_ANSWERED a).getD a).completion_status
          = a.completion_status ∧
      xapiTriggersCompletion stmt XAPI_ANSWERED = false ∧
      (_update_h5p_attempt parseFloat lessons now st a stmt XAPI_ANSWERED).enrollments
          = st.enrollments ∧
      (_update_h5p_attempt parseFloat lessons now st a stmt
          XAPI_ANSWERED).lessonCompletions = st.lessonCompletions) ∧
    (∀ (parseFloat : String → Option ℚ) (a : H5PAttemptRec)
        (stmt : List (String × Json)),
      statementParentAbsentOrEmpty stmt = true → resultWellFormed stmt = true →
      (xapiVerbUpdate parseFloat stmt XAPI_ANSWERED a).map
          (fun b => b.completion_status) = some "completed" ∧
      xapiTriggersCompletion stmt XAPI_ANSWERED = true) ∧
    statementParentAbsentOrEmpty nullResultAnsweredStmt = true ∧
    xapiVerbUpdate pfNone nullResultAnsweredStmt XAPI_ANSWERED sampleH5PAttempt
      = none ∧
    _update_h5p_attempt pfNone c2Lessons 5 c2State0 sampleH5PAttempt
      nullResultAnsweredStmt XAPI_ANSWERED = c2State0 := by
  refine ⟨?_, ?_, by decide, by decide, by decide⟩
  · intro pf lessons now st a stmt h
    have htop := not_top_level_of_nonEmptyParent stmt h
    have hchain : xapiVerbUpdate pf stmt XAPI_ANSWERED a =
        _apply_xapi_score pf (resultValue stmt) a := by
      simp [xapiVerbUpdate, XAPI_ANSWERED, XAPI_COMPLETED, XAPI_PASSED, XAPI_MASTERED,
        XAPI_FAILED, XAPI_CONSUMED, XAPI_SCORE_VERBS, htop]
    have htrig : xapiTriggersCompletion stmt XAPI_ANSWERED = false := by
      simp [xapiTriggersCompletion, XAPI_ANSWERED, XAPI_COMPLETED, XAPI_PASSED,
        XAPI_MASTERED, XAPI_FAILED, XAPI_CONSUMED, htop]
    refine ⟨?_, htrig, ?_, ?_⟩
    · rw [hchain]
      rcases happ : _apply_xapi_score pf (resultValue stmt) a with _ | b
      · rfl
      · exact (apply_xapi_score_status pf (resultValue stmt) a b happ).1
    · unfold _update_h5p_attempt
      rcases hvu : xapiVerbUpdate pf stmt XAPI_ANSWERED a with _ | a2
      · rfl
      · rw [htrig]
        rfl
    · unfold _update_h5p_attempt
      rcases hvu : xapiVerbUpdate pf stmt XAPI_ANSWERED a with _ | a2
      · rfl
      · rw [htrig]
        rfl
  · intro pf a stmt hp h
    have htop := top_level_of_parentAbsentOrEmpty stmt hp
    have hchain : xapiVerbUpdate pf stmt XAPI_ANSWERED a =
        _apply_xapi_score pf (resultValue stmt)
          { a with completion_status := "completed" } := by
      simp [xapiVerbUpdate, XAPI_ANSWERED, XAPI_COMPLETED, XAPI_PASSED, XAPI_MASTERED,
        XAPI_FAILED, XAPI_CONSUMED, XAPI_SCORE_VERBS, htop]
    constructor
    · obtain ⟨fs, hfs, happ⟩ := apply_xapi_score_resultValue pf stmt
        { a with completion_status := "completed" } h
      rw [hchain, happ]
      simp only [Option.map_some']
      rw [(applyScoreFields_status pf fs _).1]
    · simp [xapiTriggersCompletion, XAPI_ANSWERED, htop]

/-- Claim C3 witness: a child-question `answered` statement (non-empty list
parent) preserves the sample attempt status and triggers nothing, and a
top-level `answered` statement with no result completes it and triggers
propagation. -/
theorem C3_answered_top_level_filter_witness :
    (statementHasNonEmptyParent childAnsweredStmt = true ∧
      ((xapiVerbUpdate pfNone childAnsweredStmt XAPI_ANSWERED
          sampleH5PAttempt).getD sampleH5PAttempt).completion_status
        = sampleH5PAttempt.completion_status ∧
      xapiTriggersCompletion childAnsweredStmt XAPI_ANSWERED = false) ∧
    (statementParentAbsentOrEmpty topAnsweredStmt = true ∧
      resultWellFormed topAnsweredStmt = true ∧
      (xapiVerbUpdate pfNone topAnsweredStmt XAPI_ANSWERED sampleH5PAttempt).map
          (fun b => b.completion_status) = some "completed" ∧
      xapiTriggersCompletion topAnsweredStmt XAPI_ANSWERED = true) := by
  have h1 := C3_answered_top_level_filter.1 pfNone [] 0 c2State0 sampleH5PAttempt
    childAnsweredStmt (by decide)
  have h2 := C3_answered_top_level_filter.2.1 pfNone sampleH5PAttempt
    topAnsweredStmt (by decide) (by decide)
  exact ⟨⟨by decide, h1.1, h1.2.1⟩, ⟨by decide, by decide, h2.1, h2.2⟩⟩

/-- `completeMatching` never touches a row whose `completed_at` is set. -/
theorem completeMatching_get (p : CourseEnrollment → Bool) (now : Nat)
    (rows : List CourseEnrollment) (i : Nat) (e : CourseEnrollment)
    (h : rows[i]? = some e) (hne : e.completed_at ≠ none) :
    (completeMatching p now rows)[i]? = some e := by
  unfold completeMatching
  rw [List.getElem?_map, h]
  simp only [Option.map_some']
  rw [if_neg (fun hc => hne hc.2)]

/-- `_try_complete_lesson` never touches the enrollment table. -/
theorem try_complete_lesson_enrollments (st : H5PState) (user : Nat)
    (lesson : LessonPageRec) :
    (_try_complete_lesson st user lesson).2.enrollments = st.enrollments := by
  unfold _try_complete_lesson
  dsimp only
  (repeat' split) <;> rfl

/-- `_try_complete_course` never touches an enrollment row whose
`completed_at` is set. -/
theorem try_complete_course_get (lessons : List LessonPageRec) (now : Nat)
    (st : H5PState) (user course : Nat) (i : Nat) (e : CourseEnrollment)
    (h : st.enrollments[i]? = some e) (hne : e.completed_at ≠ none) :
    (_try_complete_course lessons now st user course).enrollments[i]? = some e := by
  unfold _try_complete_course
  dsimp only
  (repeat' split) <;> first
    | exact h
    | exact completeMatching_get _ _ _ _ _ h hne

/-- A fold whose step preserves completed enrollment rows preserves them
globally. -/
theorem foldl_enrollments_get {β : Type} (g : H5PState → β → H5PState)
    (i : Nat) (e : CourseEnrollment)
    (hg : ∀ (acc : H5PState) (b : β), acc.enrollments[i]? = some e →
      (g acc b).enrollments[i]? = some e) :
    ∀ (L : List β) (acc : H5PState), acc.enrollments[i]? = some e →
      ((L.foldl g acc).enrollments[i]? = some e) := by
  intro L
  induction L with
  | nil => intro acc h; exact h
  | cons hd tl ih => intro acc h; exact ih _ (hg _ _ h)

/-- `_mark_h5p_enrollment_complete` never touches an enrollment row whose
`completed_at` is set. -/
theorem mark_h5p_enrollment_get (lessons : List LessonPageRec) (now : Nat)
    (st : H5PState) (att : H5PAttemptRec) (i : Nat) (e : CourseEnrollment)
    (h : st.enrollments[i]? = some e) (hne : e.completed_at ≠ none) :
    (_mark_h5p_enrollment_complete lessons now st att).enrollments[i]? = some e := by
  unfold _mark_h5p_enrollment_complete
  dsimp only
  split
  · exact h
  · refine foldl_enrollments_get _ i e ?_ _ _ h
    intro acc lesson hacc
    split
    · exact hacc
    · split
      · split
        · refine try_complete_course_get _ _ _ _ _ _ _ ?_ hne
          rw [try_complete_lesson_enrollments]
          exact hacc
        · rw [try_complete_lesson_enrollments]
          exact hacc
      · exact hacc

/-- Claim C5: enrollment `completed_at` is monotonic.  Once an enrollment
row has a non-null `completed_at`, it is left exactly as it is by every
completion-relevant operation: any SCORM SetValue (including
`cmi.core.lesson_status` writes), the SCORM enrollment-completion update,
the H5P course-completion check and the full H5P propagation — so
re-running a completion check when `completed_at` is already set is a
no-op on that row. -/
theorem C5_completed_at_monotonic :
    (∀ (parseFloat : String → Option ℚ) (courseScorm : Nat → Option Nat)
        (now : Nat) (st : SCORMState) (key value : String) (i : Nat)
        (e : CourseEnrollment) (t : Nat),
      st.enrollments[i]? = some e → e.completed_at = some t →
      (set_scorm_value parseFloat courseScorm now st key value).enrollments[i]?
        = some e) ∧
    (∀ (courseScorm : Nat → Option Nat) (now : Nat) (att : SCORMAttemptRec)
        (rows : List CourseEnrollment) (i : Nat) (e : CourseEnrollment) (t : Nat),
      rows[i]? = some e → e.completed_at = some t →
      (_mark_enrollment_complete courseScorm now att rows)[i]? = some e) ∧
    (∀ (lessons : List LessonPageRec) (now : Nat) (st : H5PState)
        (user course i : Nat) (e : CourseEnrollment) (t : Nat),
      st.enrollments[i]? = some e → e.completed_at = some t →
      (_try_complete_course lessons now st user course).enrollments[i]? = some e) ∧
    (∀ (lessons : List LessonPageRec) (now : Nat) (st : H5PState)
        (att : H5PAttemptRec) (i : Nat) (e : CourseEnrollment) (t : Nat),
      st.enrollments[i]? = some e → e.completed_at = some t →
      (_mark_h5p_enrollment_complete lessons now st att).enrollments[i]? = some e) := by
  have hne : ∀ (e : CourseEnrollment) (t : Nat), e.completed_at = some t →
      e.completed_at ≠ none := by
    intro e t ht hn
    rw [ht] at hn
    cases hn
  refine ⟨?_, ?_, ?_, ?_⟩
  · intro pf cs now st key value i e t h ht
    unfold set_scorm_value _mark_enrollment_complete
    dsimp only
    (repeat' split) <;> first
      | exact h
      | exact completeMatching_get _ _ _ _ _ h (hne e t ht)
  · intro cs now att rows i e t h ht
    exact completeMatching_get _ _ _ _ _ h (hne e t ht)
  · intro lessons now st user course i e t h ht
    exact try_complete_course_get _ _ _ _ _ _ _ h (hne e t ht)
  · intro lessons now st att i e t h ht
    exact mark_h5p_enrollment_get _ _ _ _ _ _ h (hne e t ht)

/-- Claim C5 witness: a completed enrollment row stays untouched under a
`lesson_status` SetValue and under the H5P propagation. -/
theorem C5_completed_at_monotonic_witness :
    ({ attempt := sampleSCORMAttempt, data := []
      , enrollments := [{ user := 7, course := 10, completed_at := some 3 }] }
        : SCORMState).enrollments[0]?
      = some { user := 7, course := 10, completed_at := some 3 } ∧
    (set_scorm_value pfNone sampleCourseScorm 9
        { attempt := sampleSCORMAttempt, data := []
        , enrollments := [{ user := 7, course := 10, completed_at := some 3 }] }
        "cmi.core.lesson_status" "completed").enrollments[0]?
      = some { user := 7, course := 10, completed_at := some 3 } :=
  ⟨rfl
  , C5_completed_at_monotonic.1 pfNone sampleCourseScorm 9 _
      "cmi.core.lesson_status" "completed" 0
      { user := 7, course := 10, completed_at := some 3 } 3 rfl rfl⟩

/-- Claim C2: in a course with two trackable lessons, each holding one H5P
activity, the enrollment stays open while either activity is incomplete —
completing only activity 31 (or only 32) creates that lesson's
`LessonCompletion` but leaves `completed_at` null — and once both
activities are completed the course-level update sets `completed_at`
exactly once: the second ingestion stamps it with its `now`, and
re-ingesting a completion afterwards changes neither the enrollment nor
the lesson completions. -/
theorem C2_two_lesson_course_aggregation :
    (h5pIngest pfNone c2Lessons 100 c2State0 7 31 c2Stmt).enrollments
      = [{ user := 7, course := 10 }] ∧
    (h5pIngest pfNone c2Lessons 100 c2State0 7 31 c2Stmt).lessonCompletions
      = [(7, 21)] ∧
    (h5pIngest pfNone c2Lessons 100 c2State0 7 32 c2Stmt).enrollments
      = [{ user := 7, course := 10 }] ∧
    (h5pIngest pfNone c2Lessons 200
        (h5pIngest pfNone c2Lessons 100 c2State0 7 31 c2Stmt) 7 32 c2Stmt).enrollments
      = [{ user := 7, course := 10, completed_at := some 200 }] ∧
    (h5pIngest pfNone c2Lessons 200
        (h5pIngest pfNone c2Lessons 100 c2State0 7 31 c2Stmt) 7 32
        c2Stmt).lessonCompletions
      = [(7, 21), (7, 22)] ∧
    (h5pIngest pfNone c2Lessons 300
        (h5pIngest pfNone c2Lessons 200
          (h5pIngest pfNone c2Lessons 100 c2State0 7 31 c2Stmt) 7 32 c2Stmt)
        7 31 c2Stmt).enrollments
      = [{ user := 7, course := 10, completed_at := some 200 }] ∧
    (h5pIngest pfNone c2Lessons 300
        (h5pIngest pfNone c2Lessons 200
          (h5pIngest pfNone c2Lessons 100 c2State0 7 31 c2Stmt) 7 32 c2Stmt)
        7 31 c2Stmt).lessonCompletions
      = [(7, 21), (7, 22)] := by
  decide

/-- After `k` locked failures the retry loop sits at call `i + k` with the
budget reduced by `k`, the delay multiplied by `backoff ^ k` and the
geometric delays slept. -/
theorem retryGo_locked_run {α : Type} (oracle : Nat → CallOutcome α) (backoff : ℚ) :
    ∀ (k rem i : Nat) (d : ℚ) (slept : List ℚ),
      k < rem →
      (∀ j, j < k → ∃ m, oracle (i + j) = .operationalError m ∧ isDbLocked m = true) →
      retryGo oracle backoff rem i d slept =
        retryGo oracle backoff (rem - k) (i + k) (d * backoff ^ k)
          (slept ++ geomDelays d backoff k) := by
  intro k
  induction k with
  | zero =>
    intro rem i d slept _ _
    simp [geomDelays]
  | succ k ih =>
    intro rem i d slept hk hpre
    obtain ⟨rem', rfl⟩ : ∃ r, rem = r + 1 := ⟨rem - 1, by omega⟩
    obtain ⟨m, hm, hlock⟩ := hpre 0 (by omega)
    rw [Nat.add_zero] at hm
    have hrem' : rem' ≠ 0 := by omega
    have step1 : retryGo oracle backoff (rem' + 1) i d slept =
        retryGo oracle backoff rem' (i + 1) (d * backoff) (slept ++ [d]) := by
      simp only [retryGo, hm]
      rw [if_neg hrem', if_neg (by simp [hlock])]
    rw [step1]
    have hpre' : ∀ j, j < k →
        ∃ m, oracle (i + 1 + j) = .operationalError m ∧ isDbLocked m = true := by
      intro j hj
      have := hpre (j + 1) (by omega)
      rwa [show i + (j + 1) = i + 1 + j by omega] at this
    rw [ih rem' (i + 1) (d * backoff) (slept ++ [d]) (by omega) hpre']
    have e1 : rem' + 1 - (k + 1) = rem' - k := by omega
    have e2 : i + 1 + k = i + (k + 1) := by omega
    have e3 : d * backoff * backoff ^ k = d * backoff ^ (k + 1) := by
      rw [pow_succ]; ring
    have e4 : (slept ++ [d]) ++ geomDelays (d * backoff) backoff k =
        slept ++ geomDelays d backoff (k + 1) := by
      rw [List.append_assoc]; rfl
    rw [e1, e2, e3, e4]

/-- Claim C6: the retry decorator on SetValue retries only on the transient
locked error, sleeping an exponential backoff schedule: with `k` locked
failures before a success inside the attempt budget the call succeeds
after `k + 1` executions; a non-locked `OperationalError` or any other
exception is re-raised immediately (no further executions); and when all
budgeted attempts hit the locked error the error propagates after exactly
`max_attempts` executions.  SetValue itself uses the budget
`max_attempts = 5`, `delay = 0.05`, `backoff = 1.5`. -/
theorem C6_retry_on_db_lock_policy :
    (∀ (α : Type) (oracle : Nat → CallOutcome α) (maxAttempts : Nat)
        (delay backoff : ℚ) (k : Nat) (a : α),
      k < maxAttempts →
      (∀ j, j < k → ∃ m, oracle j = .operationalError m ∧ isDbLocked m = true) →
      oracle k = .ok a →
      retry_on_db_lock maxAttempts delay backoff oracle
        = .ok a (geomDelays delay backoff k) (k + 1)) ∧
    (∀ (α : Type) (oracle : Nat → CallOutcome α) (maxAttempts : Nat)
        (delay backoff : ℚ) (k : Nat) (m : String),
      k < maxAttempts →
      (∀ j, j < k → ∃ m, oracle j = .operationalError m ∧ isDbLocked m = true) →
      oracle k = .operationalError m → isDbLocked m = false →
      retry_on_db_lock maxAttempts delay backoff oracle
        = .raised (.operationalError m) (geomDelays delay backoff k) (k + 1)) ∧
    (∀ (α : Type) (oracle : Nat → CallOutcome α) (maxAttempts : Nat)
        (delay backoff : ℚ) (k : Nat),
      k < maxAttempts →
      (∀ j, j < k → ∃ m, oracle j = .operationalError m ∧ isDbLocked m = true) →
      oracle k = .otherError →
      retry_on_db_lock maxAttempts delay backoff oracle
        = .raised .otherError (geomDelays delay backoff k) (k + 1)) ∧
    (∀ (α : Type) (oracle : Nat → CallOutcome α) (maxAttempts : Nat)
        (delay backoff : ℚ),
      0 < maxAttempts →
      (∀ j, j < maxAttempts →
        ∃ m, oracle j = .operationalError m ∧ isDbLocked m = true) →
      ∃ m, retry_on_db_lock maxAttempts delay backoff oracle
        = .raised (.operationalError m)
            (geomDelays delay backoff (maxAttempts - 1)) maxAttempts) ∧
    (∀ oracle : Nat → CallOutcome SCORMState,
      set_scorm_value_retrying oracle = retry_on_db_lock 5 (1 / 20) (3 / 2) oracle) := by
  have reach : ∀ (α : Type) (oracle : Nat → CallOutcome α) (M : Nat)
      (delay backoff : ℚ) (k : Nat), k < M →
      (∀ j, j < k → ∃ m, oracle j = .operationalError m ∧ isDbLocked m = true) →
      retry_on_db_lock M delay backoff oracle =
        retryGo oracle backoff (M - k) k (delay * backoff ^ k)
          (geomDelays delay backoff k) := by
    intro α oracle M delay backoff k hk hpre
    unfold retry_on_db_lock
    have := retryGo_locked_run oracle backoff k M 0 delay [] hk
      (by intro j hj; simpa using hpre j hj)
    simpa using this
  refine ⟨?_, ?_, ?_, ?_, fun _ => rfl⟩
  · intro α oracle M delay backoff k a hk hpre hok
    rw [reach α oracle M delay backoff k hk hpre]
    obtain ⟨s, hs⟩ : ∃ s, M - k = s + 1 := ⟨M - k - 1, by omega⟩
    rw [hs]
    simp only [retryGo, hok]
  · intro α oracle M delay backoff k m hk hpre herr hmsg
    rw [reach α oracle M delay backoff k hk hpre]
    obtain ⟨s, hs⟩ : ∃ s, M - k = s + 1 := ⟨M - k - 1, by omega⟩
    rw [hs]
    simp only [retryGo, herr]
    by_cases h0 : s = 0
    · rw [if_pos h0]
    · rw [if_neg h0, if_pos hmsg]
  · intro α oracle M delay backoff k hk hpre herr
    rw [reach α oracle M delay backoff k hk hpre]
    obtain ⟨s, hs⟩ : ∃ s, M - k = s + 1 := ⟨M - k - 1, by omega⟩
    rw [hs]
    simp only [retryGo, herr]
  · intro α oracle M delay backoff hM hpre
    obtain ⟨m, hm, hlock⟩ := hpre (M - 1) (by omega)
    refine ⟨m, ?_⟩
    rw [reach α oracle M delay backoff (M - 1) (by omega)
      (fun j hj => hpre j (by omega))]
    have hs : M - (M - 1) = 0 + 1 := by omega
    rw [hs]
    simp only [retryGo, hm]
    rw [show M - 1 + 1 = M by omega, if_pos trivial]

/-- Claim C6 witness: three locked failures then success, under the
SetValue budget of five attempts: the call succeeds on the fourth
execution having slept the geometric schedule. -/
theorem C6_retry_on_db_lock_policy_witness :
    (3 : Nat) < 5 ∧
    lockedThriceOracle 3 = .ok 42 ∧
    retry_on_db_lock 5 (1 / 20) (3 / 2) lockedThriceOracle
      = .ok 42 (geomDelays (1 / 20) (3 / 2) 3) 4 := by
  refine ⟨by decide, by decide, ?_⟩
  exact C6_retry_on_db_lock_policy.1 Nat lockedThriceOracle 5 (1 / 20) (3 / 2) 3 42
    (by decide)
    (by
      intro j hj
      exact ⟨"database is locked", by
        simp only [lockedThriceOracle]
        rw [if_pos hj], by decide⟩)
    (by decide)

/-- `apply_cache_header` does not change the response kind. -/
theorem apply_cache_header_kind (cfg : ServeConfig) (r : HttpResponse)
    (ct : String) : (apply_cache_header cfg r ct).kind = r.kind := by
  unfold apply_cache_header
  (repeat' split) <;> rfl

/-- `apply_cache_header` never removes the frame headers. -/
theorem responseHasFrameHeaders_apply_cache (cfg : ServeConfig)
    (r : HttpResponse) (ct : String) (h : responseHasFrameHeaders r = true) :
    responseHasFrameHeaders (apply_cache_header cfg r ct) = true := by
  unfold apply_cache_header
  (repeat' split) <;>
    first
      | exact h
      | (unfold responseHasFrameHeaders at h ⊢
         simp only [Bool.and_eq_true] at h
         simp [List.any_append, h.1, h.2])

/-- `apply_security_headers` establishes the frame headers. -/
theorem responseHasFrameHeaders_security (r : HttpResponse) :
    responseHasFrameHeaders (apply_security_headers r) = true := by
  unfold responseHasFrameHeaders apply_security_headers
  simp [List.any_append]

/-- Claim C9 counterexample: with redirect-media mode enabled, a request
for a video file yields a successful (redirect) response that carries
neither anti-framing header. -/
theorem C9_counterexample :
    (ServeScormContentView.get redirectCfg mp4ContentTypeOf storageOpenAll
        storageUrlOk "pkg/lesson.mp4").map responseHasFrameHeaders
      = .ok false := by
  rfl

/-- Claim C9, amended: every response proxied from storage (the
`FileResponse` branch) by the SCORM and H5P content-serving views carries
both anti-framing headers; responses from the redirect-media branch do
not pass through `apply_security_headers` and carry only the cache
header. -/
theorem C9_file_responses_carry_frame_headers (cfg : ServeConfig)
    (contentTypeOf : String → Option String) (storageOpen : String → Bool)
    (storageUrl : String → RedirectUrlOutcome) (path : String) :
    (∀ (r : HttpResponse) (p : String),
      ServeScormContentView.get cfg contentTypeOf storageOpen storageUrl path
        = .ok r → r.kind = .file p → responseHasFrameHeaders r = true) ∧
    (∀ (r : HttpResponse) (p : String),
      ServeH5PContentView.get cfg contentTypeOf storageOpen storageUrl path
        = .ok r → r.kind = .file p → responseHasFrameHeaders r = true) := by
  have core : ∀ (r : HttpResponse) (p : String),
      ServeScormContentView.get cfg contentTypeOf storageOpen storageUrl path
        = .ok r → r.kind = .file p → responseHasFrameHeaders r = true := by
    intro r p h hkind
    unfold ServeScormContentView.get at h
    rcases hn : normalize_content_path path with _ | normalized
    · rw [hn] at h; simp at h
    · rw [hn] at h
      dsimp only at h
      split at h
      · split at h
        · injection h with h'
          subst h'
          rw [apply_cache_header_kind] at hkind
          simp at hkind
        · simp at h
        · simp at h
        · simp at h
        · simp at h
      · split at h
        · injection h with h'
          subst h'
          exact responseHasFrameHeaders_apply_cache _ _ _
            (responseHasFrameHeaders_security _)
        · simp at h
  exact ⟨core, core⟩

/-- Claim C9 amended witness: a proxied HTML file response on the
redirect-enabled configuration carries both headers. -/
theorem C9_file_responses_carry_frame_headers_witness :
    ServeScormContentView.get redirectCfg mp4ContentTypeOf storageOpenAll
        storageUrlOk "pkg/index.html"
      = .ok { kind := .file "scorm_content/pkg/index.html"
            , headers := [ ("X-Frame-Options", "SAMEORIGIN")
                         , ("Content-Security-Policy", "frame-ancestors \x27self\x27") ] } ∧
    responseHasFrameHeaders
      { kind := ResponseKind.file "scorm_content/pkg/index.html"
      , headers := [ ("X-Frame-Options", "SAMEORIGIN")
                   , ("Content-Security-Policy", "frame-ancestors \x27self\x27") ] }
      = true :=
  ⟨by rfl
  , (C9_file_responses_carry_frame_headers redirectCfg mp4ContentTypeOf storageOpenAll
      storageUrlOk "pkg/index.html").1
      { kind := ResponseKind.file "scorm_content/pkg/index.html"
      , headers := [ ("X-Frame-Options", "SAMEORIGIN")
                   , ("Content-Security-Policy", "frame-ancestors \x27self\x27") ] }
      "scorm_content/pkg/index.html" (by rfl) (by rfl)⟩

/-! ## Path lemmas for the extraction traversal claim -/

/-- `splitSlash` never returns the empty list. -/
theorem splitSlash_ne_nil (cs : List Char) : splitSlash cs ≠ [] := by
  induction cs with
  | nil => simp [splitSlash]
  | cons c rest ih =>
    unfold splitSlash
    split
    · simp
    · rcases h : splitSlash rest with _ | ⟨p, ps⟩
      · exact absurd h ih
      · simp

/-- Unfolding equation of `splitSlash` on a cons cell. -/
theorem splitSlash_cons (c : Char) (rest : List Char) :
    splitSlash (c :: rest) =
      if c = '/' then [] :: splitSlash rest
      else
        match splitSlash rest with
        | [] => [[c]]
        | p :: ps => (c :: p) :: ps := rfl

/-- Splitting around a separator splits the two sides independently. -/
theorem splitSlash_append (xs ys : List Char) :
    splitSlash (xs ++ '/' :: ys) = splitSlash xs ++ splitSlash ys := by
  induction xs with
  | nil =>
    show splitSlash ('/' :: ys) = splitSlash [] ++ splitSlash ys
    rw [splitSlash_cons, if_pos rfl]
    rfl
  | cons c rest ih =>
    show splitSlash (c :: (rest ++ '/' :: ys)) = splitSlash (c :: rest) ++ splitSlash ys
    rw [splitSlash_cons, splitSlash_cons, ih]
    by_cases hc : c = '/'
    · rw [if_pos hc, if_pos hc]
      rfl
    · rw [if_neg hc, if_neg hc]
      rcases h : splitSlash rest with _ | ⟨p, ps⟩
      · exact absurd h (splitSlash_ne_nil rest)
      · rfl

/-- Unfolding equations of `joinSlash`. -/
theorem joinSlash_cons_cons (p q : List Char) (ps : List (List Char)) :
    joinSlash (p :: q :: ps) = p ++ '/' :: joinSlash (q :: ps) := rfl

/-- Joining after splitting restores the original character list. -/
theorem joinSlash_splitSlash (cs : List Char) :
    joinSlash (splitSlash cs) = cs := by
  induction cs with
  | nil => rfl
  | cons c rest ih =>
    rw [splitSlash_cons]
    by_cases hc : c = '/'
    · rw [if_pos hc]
      rcases h : splitSlash rest with _ | ⟨p, ps⟩
      · exact absurd h (splitSlash_ne_nil rest)
      · rw [h] at ih
        rw [joinSlash_cons_cons, ih, hc]
        rfl
    · rw [if_neg hc]
      rcases h : splitSlash rest with _ | ⟨p, ps⟩
      · exact absurd h (splitSlash_ne_nil rest)
      · rw [h] at ih
        rcases ps with _ | ⟨q, qs⟩
        · show joinSlash [c :: p] = c :: rest
          show c :: p = c :: rest
          rw [show p = rest from ih]
        · rw [joinSlash_cons_cons] at ih ⊢
          show c :: (p ++ '/' :: joinSlash (q :: qs)) = c :: rest
          rw [ih]

/-- Joining two non-empty component lists inserts a single separator. -/
theorem joinSlash_append (A B : List (List Char)) (hA : A ≠ []) (hB : B ≠ []) :
    joinSlash (A ++ B) = joinSlash A ++ '/' :: joinSlash B := by
  induction A with
  | nil => exact absurd rfl hA
  | cons p ps ih =>
    rcases ps with _ | ⟨q, qs⟩
    · rcases B with _ | ⟨b, bs⟩
      · exact absurd rfl hB
      · rw [show ([p] : List (List Char)) ++ b :: bs = p :: b :: bs from rfl,
          joinSlash_cons_cons]
        rfl
    · have ih' := ih (by simp)
      rw [show (q :: qs) ++ B = q :: (qs ++ B) from rfl] at ih'
      rw [show (p :: q :: qs) ++ B = p :: q :: (qs ++ B) from rfl]
      rw [joinSlash_cons_cons p q (qs ++ B), ih', joinSlash_cons_cons p q qs]
      simp

/-- A trivial component (empty or `.`) leaves the stack unchanged. -/
theorem normStep_trivial (abs : Bool) (st : List (List Char)) (c : List Char)
    (h : c = [] ∨ c = ['.']) : normStep abs st c = st := by
  unfold normStep
  rw [if_pos h]

/-- A plain component is pushed. -/
theorem normStep_plain (abs : Bool) (st : List (List Char)) (c : List Char)
    (h : plainComp c = true) : normStep abs st c = st ++ [c] := by
  unfold plainComp at h
  simp only [Bool.not_eq_true', Bool.or_eq_false_iff, decide_eq_false_iff_not] at h
  unfold normStep
  rw [if_neg (by tauto), if_pos (Or.inl h.2)]

/-- A `..` against a relative stack with a poppable top pops. -/
theorem normStep_dd_pop (st : List (List Char)) (h1 : st ≠ [])
    (h2 : st.getLast? ≠ some ddComp) :
    normStep false st ddComp = st.dropLast := by
  unfold normStep
  rw [if_neg (by decide), if_neg (by
    push_neg
    refine ⟨by decide, ?_, ?_⟩
    · intro _; exact h1
    · intro _; exact h2), if_pos h1]

/-- A `..` against an empty relative stack is pushed. -/
theorem normStep_dd_push_empty : normStep false [] ddComp = [ddComp] := by
  decide

/-- A `..` against a stack already ending in `..` is pushed. -/
theorem normStep_dd_push_lastdd (st : List (List Char))
    (h : st.getLast? = some ddComp) :
    normStep false st ddComp = st ++ [ddComp] := by
  have hne : st ≠ [] := by
    intro he
    rw [he] at h
    simp at h
  unfold normStep
  rw [if_neg (by decide), if_pos (Or.inr (Or.inr ⟨hne, h⟩))]

/-- Folding a list of plain components onto any stack appends them all. -/
theorem foldl_normStep_plain (L : List (List Char))
    (hL : ∀ c ∈ L, plainComp c = true) :
    ∀ S, List.foldl (normStep false) S L = S ++ L := by
  induction L with
  | nil => intro S; simp
  | cons c L' ih =>
    intro S
    rw [List.foldl_cons, normStep_plain false S c (hL c (by simp)),
      ih (fun d hd => hL d (by simp [hd])) (S ++ [c])]
    simp

/-- A `..` at the bottom of a relative stack is never popped. -/
theorem foldl_normStep_bottom_dd (L : List (List Char)) :
    ∀ T, ∃ T', List.foldl (normStep false) (ddComp :: T) L = ddComp :: T' := by
  induction L with
  | nil => intro T; exact ⟨T, rfl⟩
  | cons c L' ih =>
    intro T
    rw [List.foldl_cons]
    by_cases htriv : c = [] ∨ c = ['.']
    · rw [normStep_trivial false _ c htriv]
      exact ih T
    · by_cases hdd : c = ddComp
      · subst hdd
        rcases hlast : (ddComp :: T).getLast? with _ | l
        · simp at hlast
        · by_cases hl : l = ddComp
          · subst hl
            rw [normStep_dd_push_lastdd _ hlast]
            exact ih (T ++ [ddComp])
          · rw [normStep_dd_pop _ (by simp) (by rw [hlast]; simp [hl])]
            rcases T with _ | ⟨t, ts⟩
            · simp at hlast
              exact absurd hlast.symm hl
            · rw [show (ddComp :: t :: ts).dropLast = ddComp :: (t :: ts).dropLast
                from rfl]
              exact ih ((t :: ts).dropLast)
      · have hplain : plainComp c = true := by
          unfold plainComp
          simp only [Bool.not_eq_true', Bool.or_eq_false_iff, decide_eq_false_iff_not]
          push_neg at htriv
          exact ⟨⟨htriv.1, htriv.2⟩, hdd⟩
        rw [normStep_plain false _ c hplain]
        rw [show (ddComp :: T) ++ [c] = ddComp :: (T ++ [c]) from rfl]
        exact ih (T ++ [c])

/-- If the fold from `T` produces no `..`, prepending a deeper stack `S`
underneath leaves the fold acting only on `T`. -/
theorem foldl_normStep_deep (L : List (List Char)) :
    ∀ (S T : List (List Char)),
      ddComp ∉ List.foldl (normStep false) T L →
      List.foldl (normStep false) (S ++ T) L
        = S ++ List.foldl (normStep false) T L := by
  induction L with
  | nil => intro S T _; simp
  | cons c L' ih =>
    intro S T hnd
    simp only [List.foldl_cons] at hnd ⊢
    by_cases htriv : c = [] ∨ c = ['.']
    · rw [normStep_trivial false T c htriv] at hnd
      rw [normStep_trivial false (S ++ T) c htriv, normStep_trivial false T c htriv]
      exact ih S T hnd
    · by_cases hdd : c = ddComp
      · subst hdd
        rcases T with _ | ⟨t, ts⟩
        · exfalso
          rw [normStep_dd_push_empty] at hnd
          obtain ⟨T', hT'⟩ := foldl_normStep_bottom_dd L' []
          rw [hT'] at hnd
          simp at hnd
        · rcases hlast : (t :: ts).getLast? with _ | l
          · simp at hlast
          · by_cases hl : l = ddComp
            · subst hl
              rw [normStep_dd_push_lastdd _ hlast] at hnd
              rw [normStep_dd_push_lastdd (S ++ t :: ts)
                (by rw [List.getLast?_append_of_ne_nil S (by simp)]; exact hlast)]
              rw [normStep_dd_push_lastdd _ hlast, List.append_assoc]
              exact ih S ((t :: ts) ++ [ddComp]) hnd
            · rw [normStep_dd_pop _ (by simp) (by rw [hlast]; simp [hl])] at hnd
              rw [normStep_dd_pop (S ++ t :: ts) (by simp)
                (by rw [List.getLast?_append_of_ne_nil S (by simp), hlast]; simp [hl])]
              rw [normStep_dd_pop _ (by simp) (by rw [hlast]; simp [hl])]
              rw [List.dropLast_append_of_ne_nil S (by simp)]
              exact ih S ((t :: ts).dropLast) hnd
      · have hplain : plainComp c = true := by
          unfold plainComp
          simp only [Bool.not_eq_true', Bool.or_eq_false_iff, decide_eq_false_iff_not]
          push_neg at htriv
          exact ⟨⟨htriv.1, htriv.2⟩, hdd⟩
        rw [normStep_plain false T c hplain] at hnd
        rw [normStep_plain false (S ++ T) c hplain, normStep_plain false T c hplain,
          List.append_assoc]
        exact ih S (T ++ [c]) hnd

/-- A relative normalization stack is a block of leading `..` components
followed by components that are not `..`. -/
def DDBlock (st : List (List Char)) : Prop :=
  ∃ k p, st = List.replicate k ddComp ++ p ∧ ddComp ∉ p

/-- One normalization step preserves the leading-`..`-block shape. -/
theorem normStep_DDBlock (c : List Char) (st : List (List Char))
    (h : DDBlock st) : DDBlock (normStep false st c) := by
  obtain ⟨k, p, rfl, hp⟩ := h
  by_cases htriv : c = [] ∨ c = ['.']
  · rw [normStep_trivial false _ c htriv]
    exact ⟨k, p, rfl, hp⟩
  · by_cases hdd : c = ddComp
    · subst hdd
      rcases p with _ | ⟨q, qs⟩
      · rcases k with _ | k'
        · rw [show List.replicate 0 ddComp ++ ([] : List (List Char)) = [] from rfl,
            normStep_dd_push_empty]
          exact ⟨1, [], rfl, by simp⟩
        · rw [List.append_nil]
          rw [normStep_dd_push_lastdd _ (by
            rw [List.replicate_succ']
            simp)]
          refine ⟨k' + 1 + 1, [], ?_, by simp⟩
          rw [List.append_nil, List.replicate_succ' (k' + 1)]
      · have hlast : (List.replicate k ddComp ++ q :: qs).getLast? =
            (q :: qs).getLast? :=
          List.getLast?_append_of_ne_nil _ (by simp)
        have hql : (q :: qs).getLast? ≠ some ddComp := fun hl =>
          hp (List.mem_of_getLast?_eq_some hl)
        rw [normStep_dd_pop _ (by simp) (by rw [hlast]; exact hql)]
        rw [List.dropLast_append_of_ne_nil (List.replicate k ddComp) (by simp)]
        exact ⟨k, (q :: qs).dropLast, rfl, fun hm => hp (List.dropLast_subset _ hm)⟩
    · have hplain : plainComp c = true := by
        unfold plainComp
        simp only [Bool.not_eq_true', Bool.or_eq_false_iff, decide_eq_false_iff_not]
        push_neg at htriv
        exact ⟨⟨htriv.1, htriv.2⟩, hdd⟩
      rw [normStep_plain false _ c hplain, List.append_assoc]
      refine ⟨k, p ++ [c], rfl, ?_⟩
      simp [hp, hdd]
      intro hco
      exact hdd hco.symm

/-- The relative normalization of any component list is a leading-`..`
block followed by non-`..` components. -/
theorem foldl_normStep_DDBlock (L : List (List Char)) :
    DDBlock (List.foldl (normStep false) [] L) := by
  suffices h : ∀ st, DDBlock st → DDBlock (List.foldl (normStep false) st L) from
    h [] ⟨0, [], rfl, by simp⟩
  induction L with
  | nil => intro st hst; exact hst
  | cons c L' ih =>
    intro st hst
    rw [List.foldl_cons]
    exact ih _ (normStep_DDBlock c st hst)

/-- A singleton is a prefix exactly of lists with that head. -/
theorem singleton_isPrefixOf_iff (c : Char) (cs : List Char) :
    [c].isPrefixOf cs = true ↔ cs.head? = some c := by
  cases cs with
  | nil => simp [List.isPrefixOf]
  | cons d rest =>
    simp [List.isPrefixOf]
    constructor
    · intro h; exact h.symm
    · intro h; exact h.symm

/-- Without a leading slash there are no preserved initial slashes. -/
theorem leadSlashes_eq_zero (cs : List Char) (h : cs.head? ≠ some '/') :
    leadSlashes cs = 0 := by
  unfold leadSlashes
  rw [if_neg, if_neg]
  · intro hp
    exact h ((singleton_isPrefixOf_iff '/' cs).1 hp)
  · rintro ⟨h2, -⟩
    refine h ?_
    rw [List.isPrefixOf_iff_prefix] at h2
    obtain ⟨t, rfl⟩ := h2
    rfl

/-- With a leading slash at least one initial slash is preserved. -/
theorem leadSlashes_pos (cs : List Char) (h : cs.head? = some '/') :
    0 < leadSlashes cs := by
  unfold leadSlashes
  split
  · omega
  · rw [if_pos ((singleton_isPrefixOf_iff '/' cs).2 h)]
    omega

/-- Normalizing a path that begins with a slash yields a path that begins
with a slash. -/
theorem normpathChars_head_slash (cs : List Char) (h : cs.head? = some '/') :
    ['/'].isPrefixOf (normpathChars cs) = true := by
  have hne : cs ≠ [] := by
    intro he; rw [he] at h; simp at h
  unfold normpathChars
  rw [if_neg hne]
  unfold normpathOut
  obtain ⟨k', hk'⟩ : ∃ k', leadSlashes cs = k' + 1 :=
    ⟨leadSlashes cs - 1, by have := leadSlashes_pos cs h; omega⟩
  rw [hk']
  rw [if_neg (by simp [List.replicate_succ])]
  rw [singleton_isPrefixOf_iff]
  simp [List.replicate_succ]

/-- The normalization of a `..`-headed component list starts with `..`. -/
theorem joinSlash_dd_head (rest : List (List Char)) :
    ddComp.isPrefixOf (joinSlash (ddComp :: rest)) = true := by
  rcases rest with _ | ⟨r, rs⟩
  · decide
  · rw [joinSlash_cons_cons]
    rw [List.isPrefixOf_iff_prefix]
    exact List.prefix_append ddComp _

/-- Replacing backslashes in a backslash-free list is the identity. -/
theorem replaceBsChars_id (cs : List Char) (h : ∀ c ∈ cs, ¬c = '\\') :
    replaceBsChars cs = cs := by
  induction cs with
  | nil => rfl
  | cons c rest ih =>
    show (if c = '\\' then '/' else c) :: replaceBsChars rest = c :: rest
    rw [if_neg (h c (by simp)), ih (fun d hd => h d (by simp [hd]))]

/-- Facts about a member name that survives the traversal filter: it does
not begin with a slash or backslash, and its relative normalization is a
non-empty component list containing no `..`. -/
theorem accepted_name_facts (f : String) (hf : suspiciousName f = false) :
    f.data.head? ≠ some '/' ∧ f.data.head? ≠ some '\\' ∧
    joinSlash (List.foldl (normStep false) []
      (splitSlash (replaceBsChars f.data))) ≠ [] ∧
    ddComp ∉ List.foldl (normStep false) [] (splitSlash (replaceBsChars f.data)) := by
  unfold suspiciousName at hf
  simp only [Bool.or_eq_false_iff, decide_eq_false_iff_not] at hf
  obtain ⟨⟨⟨hf1, hf2⟩, hf3⟩, hf4⟩ := hf
  have hrfhead : (replaceBsChars f.data).head? ≠ some '/' := by
    intro hh
    rw [normpathChars_head_slash (replaceBsChars f.data) hh] at hf2
    cases hf2
  have hfhead : f.data.head? ≠ some '/' ∧ f.data.head? ≠ some '\\' := by
    constructor
    · intro hh
      refine hrfhead ?_
      unfold replaceBsChars
      rw [List.head?_map, hh]
      rfl
    · intro hh
      refine hrfhead ?_
      unfold replaceBsChars
      rw [List.head?_map, hh]
      rfl
  have hrfne : replaceBsChars f.data ≠ [] := by
    intro he
    rw [show replaceBsChars f.data = List.map (fun c => if c = '\\' then '/' else c)
      f.data from rfl] at he
    have : f.data = [] := by
      cases hfd : f.data
      · rfl
      · rw [hfd] at he; cases he
    apply hf1
    unfold normpathChars
    rw [show replaceBsChars f.data = [] from by
      rw [this]; rfl]
    rfl
  have hnorm : normpathChars (replaceBsChars f.data) =
      (if joinSlash (List.foldl (normStep false) []
          (splitSlash (replaceBsChars f.data))) = [] then ['.']
        else joinSlash (List.foldl (normStep false) []
          (splitSlash (replaceBsChars f.data)))) := by
    unfold normpathChars
    rw [if_neg hrfne, leadSlashes_eq_zero _ hrfhead]
    unfold normpathOut
    rw [show (decide ((0 : Nat) < 0)) = false from rfl]
    rfl
  have hjoin : joinSlash (List.foldl (normStep false) []
      (splitSlash (replaceBsChars f.data))) ≠ [] := by
    intro he
    rw [he] at hnorm
    exact hf1 (by rw [hnorm]; rfl)
  refine ⟨hfhead.1, hfhead.2, hjoin, ?_⟩
  intro hdd
  obtain ⟨k, p, heq, hp⟩ := foldl_normStep_DDBlock (splitSlash (replaceBsChars f.data))
  rcases k with _ | k'
  · rw [heq] at hdd
    exact hp (by simpa using hdd)
  · rw [if_neg hjoin] at hnorm
    have htrue : ddComp.isPrefixOf (normpathChars (replaceBsChars f.data)) = true := by
      rw [hnorm, heq, List.replicate_succ, List.cons_append]
      exact joinSlash_dd_head _
    rw [htrue] at hf3
    cases hf3

/-- Facts about a well-formed destination directory: non-empty, no leading
or trailing slash, backslash-free, and its components are untouched by
normalization. -/
theorem plainDest_facts (dest : String) (hdest : plainDest dest = true) :
    dest.data ≠ [] ∧ dest.data.head? ≠ some '/' ∧
    dest.data.getLast? ≠ some '/' ∧ (∀ c ∈ dest.data, ¬c = '\\') ∧
    (∀ p ∈ splitSlash dest.data, plainComp p = true) := by
  unfold plainDest at hdest
  simp only [Bool.and_eq_true, List.all_eq_true, Bool.not_eq_true',
    decide_eq_false_iff_not] at hdest
  obtain ⟨hcomps, hbs⟩ := hdest
  have hne : dest.data ≠ [] := by
    intro he
    have := hcomps [] (by rw [he]; simp [splitSlash])
    cases this
  refine ⟨hne, ?_, ?_, hbs, hcomps⟩
  · intro hh
    rcases hd : dest.data with _ | ⟨d, t⟩
    · exact hne hd
    · rw [hd] at hh
      have hds : d = '/' := by simpa using hh
      have := hcomps [] (by
        rw [hd, splitSlash_cons, if_pos hds]
        simp)
      cases this
  · intro hl
    obtain ⟨init, hinit⟩ := List.getLast?_eq_some_iff.1 hl
    have := hcomps [] (by
      rw [hinit, show init ++ ['/'] = init ++ '/' :: [] from rfl, splitSlash_append]
      simp [splitSlash])
    cases this

/-- The storage path of an accepted member is the destination directory, a
slash, then the raw member name. -/
theorem posixJoin_accepted (dest f : String) (hdest : plainDest dest = true)
    (hf : suspiciousName f = false) :
    (posixJoin dest f).data = dest.data ++ '/' :: f.data := by
  obtain ⟨hne, _, hlast, _, _⟩ := plainDest_facts dest hdest
  obtain ⟨hfh, _, _, _⟩ := accepted_name_facts f hf
  show joinChars dest.data f.data = dest.data ++ '/' :: f.data
  unfold joinChars
  rw [if_neg hfh, if_neg (by
    rintro (h | h)
    · exact hne h
    · exact hlast h)]

/-- Containment: a member name that survives the traversal filter is
written to a path that lexically normalizes to a path inside the
destination directory. -/
theorem accepted_inside (dest f : String) (hdest : plainDest dest = true)
    (hf : suspiciousName f = false) :
    insideDest dest (posixJoin dest f) = true := by
  obtain ⟨hne, hhead, hlast, hbs, hcomps⟩ := plainDest_facts dest hdest
  obtain ⟨hfh, hfbs, hjoin, hdd⟩ := accepted_name_facts f hf
  unfold insideDest
  rw [posixJoin_accepted dest f hdest hf]
  have hrepl : replaceBsChars (dest.data ++ '/' :: f.data) =
      dest.data ++ '/' :: replaceBsChars f.data := by
    show List.map _ (dest.data ++ '/' :: f.data) = _
    rw [List.map_append]
    rw [show List.map (fun c => if c = '\\' then '/' else c) ('/' :: f.data)
      = '/' :: replaceBsChars f.data from rfl]
    rw [show List.map (fun c => if c = '\\' then '/' else c) dest.data
      = replaceBsChars dest.data from rfl]
    rw [replaceBsChars_id dest.data hbs]
  rw [hrepl]
  have hwne : dest.data ++ '/' :: replaceBsChars f.data ≠ [] := by simp
  have hwhead : (dest.data ++ '/' :: replaceBsChars f.data).head? ≠ some '/' := by
    rcases hd : dest.data with _ | ⟨d, t⟩
    · exact absurd hd hne
    · rw [hd] at hhead
      intro hh
      have hds : d = '/' := by simpa using hh
      exact hhead (by simp [hds])
  unfold normpathChars
  rw [if_neg hwne, leadSlashes_eq_zero _ hwhead]
  rw [show (decide ((0 : Nat) < 0)) = false from rfl]
  rw [splitSlash_append, List.foldl_append]
  rw [foldl_normStep_plain (splitSlash dest.data) hcomps []]
  rw [List.nil_append]
  have hdeep := foldl_normStep_deep (splitSlash (replaceBsChars f.data))
    (splitSlash dest.data) [] hdd
  rw [List.append_nil] at hdeep
  rw [hdeep]
  have hpartsne : List.foldl (normStep false) []
      (splitSlash (replaceBsChars f.data)) ≠ [] := by
    intro he
    rw [he] at hjoin
    exact hjoin rfl
  unfold normpathOut
  rw [joinSlash_append _ _ (splitSlash_ne_nil dest.data) hpartsne,
    joinSlash_splitSlash]
  simp only [List.replicate_zero, List.nil_append]
  rw [if_neg (by simp)]
  rw [List.isPrefixOf_iff_prefix]
  rw [show dest.data ++ '/' :: joinSlash (List.foldl (normStep false) []
      (splitSlash (replaceBsChars f.data)))
    = (dest.data ++ ['/']) ++ joinSlash (List.foldl (normStep false) []
      (splitSlash (replaceBsChars f.data))) from by simp]
  exact List.prefix_append _ _

/-- Skipping: a suspicious member is dropped from the extraction loop
without affecting any other entry. -/
theorem extractWrites_skip (conf dir : String) (e : ZipEntry)
    (h : suspiciousName e.filename = true) :
    ∀ (pre post : List ZipEntry),
      extractWrites conf dir (pre ++ e :: post) = extractWrites conf dir (pre ++ post) := by
  intro pre
  induction pre with
  | nil =>
    intro post
    cases hdir : e.isDir
    · simp [extractWrites, hdir, h]
    · simp [extractWrites, hdir]
  | cons p pre' ih =>
    intro post
    simp only [List.cons_append, extractWrites, List.append_eq, ih post]

/-- Containment: every path the extraction loop writes stays inside the
destination directory. -/
theorem extractWrites_inside (conf dir : String)
    (hdest : plainDest (destDir conf dir) = true) :
    ∀ (entries : List ZipEntry) (w : String),
      w ∈ extractWrites conf dir entries → insideDest (destDir conf dir) w = true := by
  intro entries
  induction entries with
  | nil =>
    intro w hw
    simp [extractWrites] at hw
  | cons e rest ih =>
    intro w hw
    cases hdir : e.isDir
    · cases hsusp : suspiciousName e.filename
      · rw [show extractWrites conf dir (e :: rest)
            = posixJoin (posixJoin (rstripSlash conf) dir) e.filename
              :: extractWrites conf dir rest from by
          simp [extractWrites, hdir, hsusp]] at hw
        rcases List.mem_cons.1 hw with hw | hw
        · rw [hw]
          exact accepted_inside (destDir conf dir) e.filename hdest hsusp
        · exact ih w hw
      · rw [show extractWrites conf dir (e :: rest) = extractWrites conf dir rest from by
          simp [extractWrites, hdir, hsusp]] at hw
        exact ih w hw
    · rw [show extractWrites conf dir (e :: rest) = extractWrites conf dir rest from by
        simp [extractWrites, hdir]] at hw
      exact ih w hw

/-- Claim C1: both SCORM and H5P package extraction skip — without aborting
the rest of the extraction — every archive entry whose normalized name is
`.`, starts with `/`, starts with `..` or contains a `/../` segment, and
for a well-formed destination every written storage path stays inside the
destination prefix `{content_root}/{extracted_dir}/`. -/
theorem C1_extraction_traversal_safety :
    (∀ (conf dir : String) (pre post : List ZipEntry) (e : ZipEntry),
      suspiciousName e.filename = true →
      SCORMPackage.extract_package conf dir (pre ++ e :: post)
          = SCORMPackage.extract_package conf dir (pre ++ post) ∧
      H5PActivity.extract_package conf dir (pre ++ e :: post)
          = H5PActivity.extract_package conf dir (pre ++ post)) ∧
    (∀ (conf dir : String), plainDest (destDir conf dir) = true →
      ∀ (entries : List ZipEntry) (w : String),
        (w ∈ SCORMPackage.extract_package conf dir entries ∨
          w ∈ H5PActivity.extract_package conf dir entries) →
        insideDest (destDir conf dir) w = true) := by
  constructor
  · intro conf dir pre post e h
    exact ⟨extractWrites_skip conf dir e h pre post,
      extractWrites_skip conf dir e h pre post⟩
  · intro conf dir hdest entries w hw
    rcases hw with hw | hw
    · exact extractWrites_inside conf dir hdest entries w hw
    · exact extractWrites_inside conf dir hdest entries w hw

/-- Claim C1 witness: the classic zip-slip archive — the `../../etc/passwd`
entry is skipped while `imsmanifest.xml` and `index.html` extract, and the
written `index.html` path is inside the destination. -/
theorem C1_extraction_traversal_safety_witness :
    suspiciousName "../../etc/passwd" = true ∧
    plainDest (destDir "scorm_content/" "package_1_course") = true ∧
    SCORMPackage.extract_package "scorm_content/" "package_1_course"
        ([⟨"imsmanifest.xml", false⟩] ++ ⟨"../../etc/passwd", false⟩
          :: [⟨"index.html", false⟩])
      = SCORMPackage.extract_package "scorm_content/" "package_1_course"
        ([⟨"imsmanifest.xml", false⟩] ++ [⟨"index.html", false⟩]) ∧
    insideDest (destDir "scorm_content/" "package_1_course")
      "scorm_content/package_1_course/index.html" = true :=
  ⟨by decide, by decide
  , (C1_extraction_traversal_safety.1 "scorm_content/" "package_1_course"
      [⟨"imsmanifest.xml", false⟩] [⟨"index.html", false⟩]
      ⟨"../../etc/passwd", false⟩ (by decide)).1
  , C1_extraction_traversal_safety.2 "scorm_content/" "package_1_course" (by decide)
      [⟨"imsmanifest.xml", false⟩, ⟨"index.html", false⟩]
      "scorm_content/package_1_course/index.html" (Or.inl (by decide))⟩

end WagtailLms
